import Mathlib

/-!
The call-for-service dashboards: the normalization pipeline, its fetch handler
and the paging of the call list.

A shallow embedding of the two `cleanupData` functions
(`cfs/core/assets/js/call_volume.js`, `assets/js/officer_allocation.js`), of the
`filterUpdated` response handlers that call them, and of the paging code of
`cfs/core/assets/js/call_list.js`.

Conventions of the embedding

* JavaScript values are the terms of `JSVal`.  Finite numbers are exact rationals
  (no rounding error, no overflow, no signed zero, no infinities); `JSNum.nan` is
  the not-a-number value.
* A payload section is an array of objects (`List Obj`); an absent section
  behaves like the empty array, because the underscore functions treat
  `undefined` as an empty collection.  An object is the association list of its
  own properties; `Obj.get` reads the first binding of a key.
* Behaviour of the host language and of the d3 library that is not spelled out
  here (string to number, number to string, object to string, date parsing) is a
  field of `Host`; every theorem holds for every host.
* A JavaScript exception is an `Except.error`.
-/

namespace CFS

/-! ## Values -/

/-- A JavaScript number: not-a-number, or a finite value kept exactly. -/
inductive JSNum where
  | nan
  | fin (q : ℚ)
deriving DecidableEq

/-- JavaScript values: the JSON values, `undefined`, and `Date` objects (by time value). -/
inductive JSVal where
  | undefined
  | null
  | bool (b : Bool)
  | num (n : JSNum)
  | str (s : String)
  | date (ms : Int)
  | arr (xs : List JSVal)
  | obj (fields : List (String × JSVal))

/-- An object, as the list of its own properties. -/
abbrev Obj := List (String × JSVal)

mutual
/-- Structural equality of values is decidable. -/
def JSVal.decEq : (a b : JSVal) → Decidable (a = b)
  | .undefined, .undefined => isTrue rfl
  | .null, .null => isTrue rfl
  | .bool a, .bool b =>
    if h : a = b then isTrue (by rw [h]) else isFalse (by intro e; cases e; exact h rfl)
  | .num a, .num b =>
    if h : a = b then isTrue (by rw [h]) else isFalse (by intro e; cases e; exact h rfl)
  | .str a, .str b =>
    if h : a = b then isTrue (by rw [h]) else isFalse (by intro e; cases e; exact h rfl)
  | .date a, .date b =>
    if h : a = b then isTrue (by rw [h]) else isFalse (by intro e; cases e; exact h rfl)
  | .arr a, .arr b =>
    match JSVal.decEqList a b with
    | isTrue h => isTrue (by rw [h])
    | isFalse h => isFalse (by intro e; cases e; exact h rfl)
  | .obj a, .obj b =>
    match JSVal.decEqFields a b with
    | isTrue h => isTrue (by rw [h])
    | isFalse h => isFalse (by intro e; cases e; exact h rfl)
  | .undefined, .null | .undefined, .bool _ | .undefined, .num _ | .undefined, .str _
  | .undefined, .date _ | .undefined, .arr _ | .undefined, .obj _ =>
    isFalse (by intro e; cases e)
  | .null, .undefined | .null, .bool _ | .null, .num _ | .null, .str _
  | .null, .date _ | .null, .arr _ | .null, .obj _ => isFalse (by intro e; cases e)
  | .bool _, .undefined | .bool _, .null | .bool _, .num _ | .bool _, .str _
  | .bool _, .date _ | .bool _, .arr _ | .bool _, .obj _ => isFalse (by intro e; cases e)
  | .num _, .undefined | .num _, .null | .num _, .bool _ | .num _, .str _
  | .num _, .date _ | .num _, .arr _ | .num _, .obj _ => isFalse (by intro e; cases e)
  | .str _, .undefined | .str _, .null | .str _, .bool _ | .str _, .num _
  | .str _, .date _ | .str _, .arr _ | .str _, .obj _ => isFalse (by intro e; cases e)
  | .date _, .undefined | .date _, .null | .date _, .bool _ | .date _, .num _
  | .date _, .str _ | .date _, .arr _ | .date _, .obj _ => isFalse (by intro e; cases e)
  | .arr _, .undefined | .arr _, .null | .arr _, .bool _ | .arr _, .num _
  | .arr _, .str _ | .arr _, .date _ | .arr _, .obj _ => isFalse (by intro e; cases e)
  | .obj _, .undefined | .obj _, .null | .obj _, .bool _ | .obj _, .num _
  | .obj _, .str _ | .obj _, .date _ | .obj _, .arr _ => isFalse (by intro e; cases e)
/-- Structural equality of arrays of values is decidable. -/
def JSVal.decEqList : (a b : List JSVal) → Decidable (a = b)
  | [], [] => isTrue rfl
  | [], _ :: _ => isFalse (by intro e; cases e)
  | _ :: _, [] => isFalse (by intro e; cases e)
  | a :: as, b :: bs =>
    match JSVal.decEq a b, JSVal.decEqList as bs with
    | isTrue h, isTrue h2 => isTrue (by rw [h, h2])
    | isFalse h, _ => isFalse (by intro e; cases e; exact h rfl)
    | _, isFalse h => isFalse (by intro e; cases e; exact h rfl)
/-- Structural equality of property lists is decidable. -/
def JSVal.decEqFields : (a b : List (String × JSVal)) → Decidable (a = b)
  | [], [] => isTrue rfl
  | [], _ :: _ => isFalse (by intro e; cases e)
  | _ :: _, [] => isFalse (by intro e; cases e)
  | (k, a) :: as, (l, b) :: bs =>
    if hk : k = l then
      match JSVal.decEq a b, JSVal.decEqFields as bs with
      | isTrue h, isTrue h2 => isTrue (by rw [hk, h, h2])
      | isFalse h, _ => isFalse (by intro e; cases e; exact h rfl)
      | _, isFalse h => isFalse (by intro e; cases e; exact h rfl)
    else isFalse (by intro e; cases e; exact hk rfl)
end

instance : DecidableEq JSVal := JSVal.decEq

/-- What a JavaScript `throw` carries: a `TypeError` raised by the language or a
library, or a value thrown by the program. -/
inductive JSErr where
  | typeError
  | thrown (v : JSVal)
deriving DecidableEq

/-- Host behaviour the embedding does not spell out.
`stringToNumber` is ToNumber on strings, `numberToString` is ToString on finite
numbers, `objectToString` is ToString on arrays, plain objects and dates,
`arrayMember k` is what an array yields for a key `k` that is neither an index
nor `length` (the inherited members), and `d3_time_parse template` is
`d3.time.format(template).parse`. -/
structure Host where
  stringToNumber : String → JSNum
  numberToString : ℚ → String
  objectToString : JSVal → String
  arrayMember : String → JSVal
  d3_time_parse : String → JSVal → Except JSErr JSVal

/-! ## Language semantics -/

/-- ToBoolean: `undefined`, `null`, `false`, `0`, `NaN` and the empty string are falsy. -/
def truthy : JSVal → Bool
  | .undefined => false
  | .null => false
  | .bool b => b
  | .num .nan => false
  | .num (.fin q) => decide (q ≠ 0)
  | .str s => decide (s ≠ "")
  | .date _ => true
  | .arr _ => true
  | .obj _ => true

/-- ToPrimitive with hint number: a date gives its time value, arrays and plain
objects give their string form. -/
def toPrimitive (h : Host) : JSVal → JSVal
  | .date ms => .num (.fin ms)
  | .arr xs => .str (h.objectToString (.arr xs))
  | .obj fs => .str (h.objectToString (.obj fs))
  | v => v

/-- ToNumber on a primitive value. -/
def primToNumber (h : Host) : JSVal → JSNum
  | .undefined => .nan
  | .null => .fin 0
  | .bool b => .fin (if b then 1 else 0)
  | .num n => n
  | .str s => h.stringToNumber s
  | _ => .nan

/-- ToNumber, the conversion behind unary `+`, unary `-` and `*`. -/
def toNumber (h : Host) (v : JSVal) : JSNum :=
  primToNumber h (toPrimitive h v)

/-- ToPropertyKey, for a computed member access `o[v]`. -/
def toPropertyKey (h : Host) : JSVal → String
  | .undefined => "undefined"
  | .null => "null"
  | .bool b => if b then "true" else "false"
  | .num .nan => "NaN"
  | .num (.fin q) => h.numberToString q
  | .str s => s
  | v => h.objectToString v

/-- Unary minus on a number. -/
def JSNum.neg : JSNum → JSNum
  | .nan => .nan
  | .fin q => .fin (-q)

/-- Product of two numbers. -/
def JSNum.mul : JSNum → JSNum → JSNum
  | .fin a, .fin b => .fin (a * b)
  | _, _ => .nan

/-- Sum of two numbers. -/
def JSNum.add : JSNum → JSNum → JSNum
  | .fin a, .fin b => .fin (a + b)
  | _, _ => .nan

/-- Quotient of two numbers; a zero divisor (an infinity or NaN in JavaScript) is
outside the finite numbers and is rendered as `nan`. -/
def JSNum.div : JSNum → JSNum → JSNum
  | .fin a, .fin b => if b = 0 then .nan else .fin (a / b)
  | _, _ => .nan

/-- The `<` of two numbers: false as soon as one is NaN. -/
def JSNum.lt : JSNum → JSNum → Bool
  | .fin a, .fin b => decide (a < b)
  | _, _ => false

/-- The `===` of two numbers: NaN equals nothing. -/
def JSNum.strictEq : JSNum → JSNum → Bool
  | .fin a, .fin b => decide (a = b)
  | _, _ => false

/-- The UTF-16 code units of a character. -/
def utf16 (c : Char) : List Nat :=
  if c.toNat < 0x10000 then [c.toNat]
  else [0xD800 + (c.toNat - 0x10000) / 0x400, 0xDC00 + (c.toNat - 0x10000) % 0x400]

/-- The UTF-16 code units of a string: what JavaScript compares strings by. -/
def codeUnits (s : String) : List Nat :=
  s.toList.flatMap utf16

/-- Lexicographic `<` on code-unit sequences. -/
def lexLt : List Nat → List Nat → Bool
  | [], [] => false
  | [], _ :: _ => true
  | _ :: _, [] => false
  | a :: as, b :: bs => if a < b then true else if b < a then false else lexLt as bs

/-- The relational operator `a < b`: two strings compare by code units, anything
else numerically. -/
def jsLt (h : Host) (a b : JSVal) : Bool :=
  match toPrimitive h a, toPrimitive h b with
  | .str s, .str t => lexLt (codeUnits s) (codeUnits t)
  | pa, pb => (primToNumber h pa).lt (primToNumber h pb)

/-- The relational operator `a > b`, which is `b < a`. -/
def jsGt (h : Host) (a b : JSVal) : Bool :=
  jsLt h b a

/-- The operator `a === b`.  Two arrays, objects or dates are equal only when they
are the same reference; values that come from distinct places of a parsed
payload never are, so the comparison is false for them. -/
def strictEq : JSVal → JSVal → Bool
  | .undefined, .undefined => true
  | .null, .null => true
  | .bool a, .bool b => a == b
  | .num a, .num b => a.strictEq b
  | .str a, .str b => a == b
  | _, _ => false

/-- Whether `v != null`, underscore-contrib's `existy`. -/
def existy : JSVal → Bool
  | .undefined => false
  | .null => false
  | _ => true

/-- Reading `o.k` on an object: the value of the own property, else `undefined`. -/
def Obj.get (o : Obj) (k : String) : JSVal :=
  match o.lookup k with
  | some v => v
  | none => .undefined

/-- The test `k in o` on own properties. -/
def Obj.has (o : Obj) (k : String) : Bool :=
  (o.lookup k).isSome

/-- The assignment `o[k] = v`: replaces the binding of `k` or appends one.  The key
`__proto__` names the prototype accessor and never creates an own property. -/
def Obj.set (o : Obj) (k : String) (v : JSVal) : Obj :=
  if k = "__proto__" then o
  else if o.has k then o.map (fun p => if p.1 = k then (p.1, v) else p)
  else o ++ [(k, v)]

/-- Reading `v[k]` on an arbitrary value, for the property names this program
uses: a `TypeError` on `undefined` and `null`, the own property on an object, the
element on an array when `k` is an index, `undefined` otherwise. -/
def getProp (v : JSVal) (k : String) : Except JSErr JSVal :=
  match v with
  | .undefined => .error .typeError
  | .null => .error .typeError
  | .obj fs => .ok (Obj.get fs k)
  | .arr xs =>
    match (List.range xs.length).find? (fun i => toString i = k) with
    | some i => .ok (xs.getD i .undefined)
    | none => .ok .undefined
  | _ => .ok .undefined

/-- Indexing a fixed array of labels, `table[id]`, with a number: the label when
`id` is an index of the table, `undefined` otherwise. -/
def tableAt (table : List String) (q : ℚ) : JSVal :=
  if q.den = 1 ∧ 0 ≤ q.num then
    match table.get? q.num.toNat with
    | some s => .str s
    | none => .undefined
  else .undefined

/-- The member access `table[id]` on a fixed array of labels. -/
def tableGet (h : Host) (table : List String) (id : JSVal) : JSVal :=
  match id with
  | .num (.fin q) => tableAt table q
  | v =>
    match (List.range table.length).find? (fun i => toString i = toPropertyKey h v) with
    | some i => tableAt table i
    | none =>
      if toPropertyKey h v = "length" then .num (.fin table.length)
      else h.arrayMember (toPropertyKey h v)

/-! ## underscore, underscore-contrib and d3 -/

/-- An element being sorted by `_.sortBy`, with its position and its criterion. -/
structure Ranked (α : Type) where
  value : α
  index : Nat
  criteria : JSVal

/-- The comparator of `_.sortBy`: criteria first, `undefined` last, the original
position to break ties. -/
def compareRanked {α : Type} (h : Host) (left right : Ranked α) : Int :=
  let a := left.criteria
  let b := right.criteria
  if !strictEq a b then
    if jsGt h a b || strictEq a .undefined then 1
    else if jsLt h a b || strictEq b .undefined then -1
    else (left.index : Int) - right.index
  else (left.index : Int) - right.index

/-- `Array.prototype.sort` with a comparator, as an insertion sort.  When the
comparator is a total order on the elements the sorted array is unique, so the
choice of algorithm is not observable. -/
def arraySort {α : Type} (cmp : α → α → Int) (xs : List α) : List α :=
  xs.insertionSort (fun x y => cmp x y ≤ 0)

/-- `_.sortBy(list, iteratee)`. -/
def sortBy {α : Type} (h : Host) (iteratee : α → JSVal) (list : List α) : List α :=
  (arraySort (compareRanked h)
    (list.enum.map (fun p => (⟨p.2, p.1, iteratee p.2⟩ : Ranked α)))).map (fun r => r.value)

/-- `_.map(list, iteratee)` for an iteratee that may throw: the first exception
aborts the traversal. -/
def mapE {α β : Type} (f : α → Except JSErr β) : List α → Except JSErr (List β)
  | [] => .ok []
  | a :: as =>
    match f a with
    | .error e => .error e
    | .ok b =>
      match mapE f as with
      | .error e => .error e
      | .ok bs => .ok (b :: bs)

/-- `_.selectKeys(obj, ks)`, that is `_.pick`: the properties of `obj` named in `ks`. -/
def selectKeys (obj : Obj) (ks : List String) : Obj :=
  ks.foldl (fun result k => if obj.has k then result.set k (obj.get k) else result) []

/-- `_.omit(obj, ks)`: the properties of `obj` not named in `ks`. -/
def omitKeys (obj : Obj) (ks : List String) : Obj :=
  obj.filter (fun p => !ks.contains p.1)

/-- `_.renameKeys(obj, kobj)` of underscore-contrib: drops the old keys and, for
each old key whose value is neither `null` nor `undefined`, binds the new key. -/
def renameKeys (obj : Obj) (kobj : List (String × String)) : Obj :=
  kobj.foldl (fun o p => if existy (obj.get p.1) then o.set p.2 (obj.get p.1) else o)
    (omitKeys obj (kobj.map Prod.fst))

/-- `_.keys(v)`: the own keys of an object, the indices of an array, nothing for
a value that is not an object. -/
def keys : JSVal → List String
  | .obj fs => fs.map Prod.fst
  | .arr xs => (List.range xs.length).map toString
  | _ => []

/-- `Math.round`: to the nearest integer, halves upwards. -/
def Math_round : JSNum → JSNum
  | .nan => .nan
  | .fin q => .fin ((⌊q + 1 / 2⌋ : ℤ) : ℚ)

/-- `d3.round(x, n)`, which is
`n ? Math.round(x * (n = Math.pow(10, n))) / n : Math.round(x)`. -/
def d3_round (h : Host) (x : JSVal) (n : Nat) : JSNum :=
  if n ≠ 0 then (Math_round ((toNumber h x).mul (.fin ((10 : ℚ) ^ n)))).div (.fin ((10 : ℚ) ^ n))
  else Math_round (toNumber h x)

/-- A chart group `{key: key, values: values}`. -/
def group (key : String) (values : List Obj) : Obj :=
  [("key", .str key), ("values", .arr (values.map JSVal.obj))]

/-! ## call_volume.js -/

namespace CallVolume

/-- The two region switches of the global `siteConfig` read by `cleanupData`. -/
structure SiteConfig where
  use_beat : JSVal
  use_district : JSVal

/-- The object `cleanupData` receives and returns.  Before the call each section
holds the raw entries; after it, the chart series.  `map_data` is absent until
assigned; `other` holds the properties the function never touches. -/
structure Payload where
  volume_by_nature_group : List Obj
  volume_by_nature : List Obj
  volume_by_date : List Obj
  volume_by_source : List Obj
  volume_by_beat : List Obj
  volume_by_district : List Obj
  volume_by_dow : List Obj
  volume_by_shift : List Obj
  heatmap : List Obj
  map_data : Option Obj
  other : Obj
deriving DecidableEq

/-- A cell of `heatmapData`: `day` and `hour` are always numbers (they come from a
unary plus or from the loop counters); the cells pushed by the loop have no
`value` property. -/
structure HeatCell where
  day : JSNum
  hour : JSNum
  value : Option JSNum
deriving DecidableEq

/-- The object a cell stands for. -/
def HeatCell.toObj (c : HeatCell) : Obj :=
  match c.value with
  | some v => [("day", .num c.day), ("hour", .num c.hour), ("value", .num v)]
  | none => [("day", .num c.day), ("hour", .num c.hour)]

/-- The predicate `findData(day, hour)` of the source. -/
def findData (day hour : JSNum) (d : HeatCell) : Bool :=
  d.day.strictEq day && d.hour.strictEq hour

/-- One turn of the inner loop: push `{day: i, hour: j}` unless `_.find` finds a cell. -/
def fillStep (heatmapData : List HeatCell) (i j : Nat) : List HeatCell :=
  if (heatmapData.find? (findData (.fin i) (.fin j))).isNone then
    heatmapData ++ [⟨.fin i, .fin j, none⟩]
  else heatmapData

/-- The two nested loops `for i < 7`, `for j < 24`. -/
def fillGrid (heatmapData : List HeatCell) : List HeatCell :=
  (List.range 7).foldl
    (fun acc i => (List.range 24).foldl (fun acc2 j => fillStep acc2 i j) acc) heatmapData

/-- The reducer of `map_data`: `memo[d.name] = d.volume`. -/
def regionReduce (h : Host) (list : List Obj) : Obj :=
  list.foldl (fun memo d => memo.set (toPropertyKey h (d.get "name")) (d.get "volume")) []

/-- The mapper shared by the three id-labelled series:
`{id: d.id, volume: d.volume, name: table[d.id]}`. -/
def labelled (h : Host) (table : List String) (d : Obj) : Obj :=
  [("id", d.get "id"), ("volume", d.get "volume"), ("name", tableGet h table (d.get "id"))]

/-- The iteratee of the `_.map` over `volume_by_date`: keep `date` and `volume`,
rename them to `x` and `y`, then replace `x` by `indate.parse(obj.x)`. -/
def datePoint (h : Host) (obj : Obj) : Except JSErr Obj :=
  let obj2 := renameKeys (selectKeys obj ["date", "volume"]) [("date", "x"), ("volume", "y")]
  match h.d3_time_parse "%Y-%m-%dT%H:%M:%S" (obj2.get "x") with
  | .error e => .error e
  | .ok x => .ok (obj2.set "x" x)

/-- The iteratee of the `_.map` over `heatmap`:
`{day: +d.dow_received, hour: +d.hour_received, value: +d.volume}`. -/
def heatCell (h : Host) (d : Obj) : HeatCell :=
  ⟨toNumber h (d.get "dow_received"), toNumber h (d.get "hour_received"),
    some (toNumber h (d.get "volume"))⟩

/-- The sort key of the heatmap, `d.day * 24 + d.hour`. -/
def heatKey (d : HeatCell) : JSNum :=
  (d.day.mul (.fin 24)).add d.hour

/-- The function `cleanupData` of call_volume.js. -/
def cleanupData (h : Host) (siteConfig : SiteConfig) (data : Payload) :
    Except JSErr Payload :=
  let volume_by_nature_group :=
    sortBy h (fun d => d.get "name")
      (data.volume_by_nature_group.filter (fun d => truthy (d.get "name")))
  let volume_by_nature :=
    (sortBy h (fun d => .num (toNumber h (d.get "volume")).neg)
      (data.volume_by_nature.filter (fun d => truthy (d.get "name")))).take 20
  match mapE (datePoint h) data.volume_by_date with
  | .error e => .error e
  | .ok volume_by_date =>
    let sources := ["Officer", "Citizen"]
    let volume_by_source :=
      sortBy h (fun d => d.get "id") (data.volume_by_source.map (labelled h sources))
    let map_data :=
      if truthy siteConfig.use_beat then some (regionReduce h data.volume_by_beat)
      else if truthy siteConfig.use_district then some (regionReduce h data.volume_by_district)
      else data.map_data
    let volume_by_beat :=
      sortBy h (fun d => d.get "volume")
        (data.volume_by_beat.filter (fun d => truthy (d.get "name")))
    let dow := ["Mon", "Tue", "Wed", "Thu", "Fri", "Sat", "Sun"]
    let volume_by_dow :=
      sortBy h (fun d => d.get "id") (data.volume_by_dow.map (labelled h dow))
    let shifts := ["Shift 1", "Shift 2"]
    let volume_by_shift :=
      sortBy h (fun d => d.get "id") (data.volume_by_shift.map (labelled h shifts))
    let heatmapData := data.heatmap.map (heatCell h)
    let heatmapData2 :=
      if 0 < heatmapData.length ∧ heatmapData.length < 24 * 7 then fillGrid heatmapData
      else heatmapData
    let heatmapData3 := sortBy h (fun d => .num (heatKey d)) heatmapData2
    .ok
      { volume_by_nature_group := [group "Call Volume" volume_by_nature_group]
        volume_by_nature := [group "Call Volume" volume_by_nature]
        volume_by_date := [group "Call Volume" volume_by_date]
        volume_by_source := [group "Volume by Source" volume_by_source]
        volume_by_beat := [group "Volume By Beat" volume_by_beat]
        volume_by_district := data.volume_by_district
        volume_by_dow := [group "Volume By Day of Week" volume_by_dow]
        volume_by_shift := [group "Volume By Shift" volume_by_shift]
        heatmap := heatmapData3.map HeatCell.toObj
        map_data := map_data
        other := data.other }

/-- The slots of the dashboard that the response handler writes, and the others. -/
structure Store where
  loading : JSVal
  initialload : JSVal
  data : Payload
  rest : String → JSVal

/-- The callback `function (error, newData)` that `filterUpdated` hands to
`d3.json`, run on a store: the store it leaves and whether it threw. -/
def filterUpdated_callback (h : Host) (siteConfig : SiteConfig) (self : Store)
    (error : JSVal) (newData : Payload) : Store × Except JSErr Unit :=
  if truthy error then (self, .error (.thrown error))
  else
    let self1 := { self with loading := .bool false }
    let self2 := { self1 with initialload := .bool false }
    match cleanupData h siteConfig newData with
    | .error e => (self2, .error e)
    | .ok cleaned => ({ self2 with data := cleaned }, .ok ())

end CallVolume

/-! ## officer_allocation.js -/

namespace OfficerAllocation

/-- The object `cleanupData` receives and returns.  `allocation_over_time` is an
object keyed by time of day before the call and an array of five groups after. -/
structure Payload where
  allocation_over_time : JSVal
  on_duty_by_beat : List Obj
  on_duty_by_district : List Obj
  other : Obj
deriving DecidableEq

/-- The expression `data.allocation_over_time[k][status].avg_volume`. -/
def avgVolume (allocation_over_time : JSVal) (k status : String) : Except JSErr JSVal :=
  match getProp allocation_over_time k with
  | .error e => .error e
  | .ok row =>
    match getProp row status with
    | .error e => .error e
    | .ok cell => getProp cell "avg_volume"

/-- A point `{x: time, y: y}`. -/
def point (time y : JSVal) : Obj :=
  [("x", time), ("y", y)]

/-- The five points pushed for one key `k`, in the order of the groups
(citizen-initiated, officer-initiated, out of service, directed patrol, patrol).
The `var` statement evaluates `oos`, `dp`, `oic`, `cic`, `pat`, `time` in that
order; only `oos` goes through `d3.round`. -/
def allocationRow (h : Host) (allocation_over_time : JSVal) (k : String) :
    Except JSErr (List Obj) :=
  match avgVolume allocation_over_time k "OUT OF SERVICE" with
  | .error e => .error e
  | .ok oosRaw =>
    let oos := JSVal.num (d3_round h oosRaw 2)
    match avgVolume allocation_over_time k "IN CALL - DIRECTED PATROL" with
    | .error e => .error e
    | .ok dp =>
      match avgVolume allocation_over_time k "IN CALL - SELF INITIATED" with
      | .error e => .error e
      | .ok oic =>
        match avgVolume allocation_over_time k "IN CALL - CITIZEN INITIATED" with
        | .error e => .error e
        | .ok cic =>
          match avgVolume allocation_over_time k "PATROL" with
          | .error e => .error e
          | .ok pat =>
            match h.d3_time_parse "%H:%M:%S" (.str k) with
            | .error e => .error e
            | .ok time =>
              .ok [point time cic, point time oic, point time oos, point time dp,
                point time pat]

/-- The values of group `i` once every key has been visited: the `i`-th point of
each row, in the order of the visit. -/
def column (rows : List (List Obj)) (i : Nat) : List Obj :=
  rows.map (fun row => row.getD i [])

/-- The function `cleanupData` of officer_allocation.js. -/
def cleanupData (h : Host) (data : Payload) : Except JSErr Payload :=
  match mapE (allocationRow h data.allocation_over_time)
      (sortBy h (fun k => JSVal.str k) (keys data.allocation_over_time)) with
  | .error e => .error e
  | .ok rows =>
    let temp_allocation_data :=
      [group "Citizen-Initiated Call" (column rows 0),
        group "Officer-Initiated Call" (column rows 1),
        group "Out of Service" (column rows 2),
        group "Directed Patrol" (column rows 3),
        group "Patrol" (column rows 4)]
    .ok
      { allocation_over_time := .arr (temp_allocation_data.map JSVal.obj)
        on_duty_by_beat :=
          [group "Average On Duty"
            (sortBy h (fun d => d.get "beat")
              (data.on_duty_by_beat.filter (fun d => truthy (d.get "beat"))))]
        on_duty_by_district :=
          [group "Average On Duty"
            (sortBy h (fun d => d.get "district")
              (data.on_duty_by_district.filter (fun d => truthy (d.get "district"))))]
        other := data.other }

/-- The `y` accessor of the two on-duty charts: `d3.round(d.on_duty, 2)`. -/
def chartY (h : Host) (d : Obj) : JSNum :=
  d3_round h (d.get "on_duty") 2

/-- The slots of the dashboard that the response handler writes, and the others. -/
structure Store where
  loading : JSVal
  initialload : JSVal
  data : Payload
  rest : String → JSVal

/-- The callback `function(error, newData)` that `filterUpdated` hands to
`d3.json`, run on a store: the store it leaves and whether it threw. -/
def filterUpdated_callback (h : Host) (self : Store) (error : JSVal) (newData : Payload) :
    Store × Except JSErr Unit :=
  if truthy error then (self, .error (.thrown error))
  else
    let self1 := { self with loading := .bool false }
    let self2 := { self1 with initialload := .bool false }
    match cleanupData h newData with
    | .error e => (self2, .error e)
    | .ok cleaned => ({ self2 with data := cleaned }, .ok ())

end OfficerAllocation

/-! ## A concrete host for the examples -/

/-- The value of a decimal digit. -/
def digitVal (c : Char) : Option Nat :=
  if c.isDigit then some (c.toNat - 48) else none

/-- The number written by a list of decimal digits. -/
def digitsVal (cs : List Char) : Option Nat :=
  cs.foldl (fun acc c =>
    match acc, digitVal c with
    | some n, some d => some (10 * n + d)
    | _, _ => none) (some 0)

/-- Days from 1970-01-01 to the civil date `y-m-d`. -/
def daysFromCivil (y m d : Int) : Int :=
  let y2 := if m ≤ 2 then y - 1 else y
  let era := y2 / 400
  let yoe := y2 - era * 400
  let doy := (153 * (m + (if 2 < m then -3 else 9)) + 2) / 5 + d - 1
  let doe := yoe * 365 + yoe / 4 - yoe / 100 + doy
  era * 146097 + doe - 719468

/-- Milliseconds of the time of day `hh:mm:ss`. -/
def timeOfDay (cs : List Char) : Option Int :=
  match cs with
  | [h1, h2, ':', m1, m2, ':', s1, s2] =>
    match digitsVal [h1, h2], digitsVal [m1, m2], digitsVal [s1, s2] with
    | some hh, some mm, some ss => some (((hh * 60 + mm) * 60 + ss) * 1000 : Nat)
    | _, _, _ => none
  | _ => none

/-- A stand-in for `d3.time.format(template).parse` on the two templates of the
program, for fixed-width input read as UTC: a `TypeError` on a value that is not a
string (the library reads its `length`), `null` on a string that does not match. -/
def refParse (template : String) (v : JSVal) : Except JSErr JSVal :=
  match v with
  | .str s =>
    if template = "%H:%M:%S" then
      match timeOfDay s.toList with
      | some t => .ok (.date (daysFromCivil 1900 1 1 * 86400000 + t))
      | none => .ok .null
    else
      match s.toList with
      | y1 :: y2 :: y3 :: y4 :: '-' :: m1 :: m2 :: '-' :: d1 :: d2 :: 'T' :: rest =>
        match digitsVal [y1, y2, y3, y4], digitsVal [m1, m2], digitsVal [d1, d2],
          timeOfDay rest with
        | some y, some m, some d, some t =>
          .ok (.date (daysFromCivil y m d * 86400000 + t))
        | _, _, _, _ => .ok .null
      | _ => .ok .null
  | _ => .error .typeError

/-- The host of the examples.  Its conversions are exact on what the examples
use (strings of decimal digits, integers) and arbitrary elsewhere. -/
def refHost : Host where
  stringToNumber := fun s =>
    match digitsVal s.toList with
    | some n => if s = "" then .nan else .fin n
    | none => .nan
  numberToString := fun q => toString q.num
  objectToString := fun _ => "[object Object]"
  arrayMember := fun _ => .undefined
  d3_time_parse := refParse

/-- A host whose date parser never throws: it answers `null` where `refHost` throws. -/
def lenientHost : Host :=
  { refHost with
    d3_time_parse := fun template v =>
      match refParse template v with
      | .error _ => .ok .null
      | .ok r => .ok r }

/-! ## Vocabulary of the statements -/

namespace CallVolume

/-- The positions of the grid in the order the two loops visit them. -/
def gridPositions : List (Nat × Nat) :=
  (List.range 7).flatMap (fun i => (List.range 24).map (fun j => (i, j)))

/-- The natural number a heatmap key stands for. -/
def keyNat (c : HeatCell) : Nat :=
  match heatKey c with
  | .fin q => q.num.toNat
  | .nan => 0

/-- The cell expected at key `i`: the input cell at that position of the grid, or
a cell without value. -/
def cellAt (cells : List HeatCell) (i : Nat) : HeatCell :=
  match cells.find? (findData (.fin ((i / 24 : ℕ) : ℚ)) (.fin ((i % 24 : ℕ) : ℚ))) with
  | some c => c
  | none => ⟨.fin ((i / 24 : ℕ) : ℚ), .fin ((i % 24 : ℕ) : ℚ), none⟩

/-- A cell with a whole day `0..6` and a whole hour `0..23`. -/
def CellOnGrid (c : HeatCell) : Prop :=
  ∃ d hr : ℕ, d < 7 ∧ hr < 24 ∧ c.day = .fin d ∧ c.hour = .fin hr

/-- Every entry of `volume_by_date` gets through `indate.parse` without a throw. -/
def DatesParse (h : Host) (data : Payload) : Prop :=
  ∀ e ∈ data.volume_by_date, ∃ pt, datePoint h e = .ok pt

/-- Every heatmap entry has a whole day `0..6` and a whole hour `0..23`. -/
def HeatmapOnGrid (h : Host) (raw : List Obj) : Prop :=
  ∀ e ∈ raw, ∃ d hr : ℕ, d < 7 ∧ hr < 24 ∧
    toNumber h (e.get "dow_received") = .fin d ∧ toNumber h (e.get "hour_received") = .fin hr

/-- No two heatmap entries share their `(day, hour)`. -/
def HeatmapDistinct (h : Host) (raw : List Obj) : Prop :=
  raw.Pairwise (fun a b =>
    ¬ (toNumber h (a.get "dow_received") = toNumber h (b.get "dow_received") ∧
      toNumber h (a.get "hour_received") = toNumber h (b.get "hour_received")))

/-- A configuration with the beat map switched on. -/
def exConfig : SiteConfig := ⟨.bool true, .bool false⟩

/-- A payload with two of the 168 heatmap cells. -/
def exSparse : Payload :=
  { volume_by_nature_group := []
    volume_by_nature := []
    volume_by_date := [[("date", .str "2024-01-02T00:00:00"), ("volume", .num (.fin 3))]]
    volume_by_source := []
    volume_by_beat := []
    volume_by_district := []
    volume_by_dow := []
    volume_by_shift := []
    heatmap :=
      [[("dow_received", .num (.fin 1)), ("hour_received", .num (.fin 3)),
          ("volume", .num (.fin 5))],
        [("dow_received", .num (.fin 0)), ("hour_received", .num (.fin 23)),
          ("volume", .num (.fin 2))]]
    map_data := none
    other := [] }

end CallVolume

/-- Structural equality of results is decidable. -/
instance instDecidableEqExcept {ε α : Type} [DecidableEq ε] [DecidableEq α] :
    DecidableEq (Except ε α)
  | .ok a, .ok b =>
    if h : a = b then isTrue (by rw [h]) else isFalse (by intro e; cases e; exact h rfl)
  | .error a, .error b =>
    if h : a = b then isTrue (by rw [h]) else isFalse (by intro e; cases e; exact h rfl)
  | .ok _, .error _ => isFalse (by intro e; cases e)
  | .error _, .ok _ => isFalse (by intro e; cases e)

/-- The rational a finite number stands for; zero for NaN. -/
def JSNum.toRat : JSNum → ℚ
  | .fin q => q
  | .nan => 0

/-- The volume of an entry as a rational, after ToNumber. -/
def volumeOf (h : Host) (e : Obj) : ℚ :=
  (toNumber h (e.get "volume")).toRat

/-- An entry `{name: name, volume: volume}`. -/
def named (name : String) (volume : ℚ) : Obj :=
  [("name", .str name), ("volume", .num (.fin volume))]

namespace CallVolume

/-- The payload with every section empty. -/
def emptyPayload : Payload :=
  { volume_by_nature_group := []
    volume_by_nature := []
    volume_by_date := []
    volume_by_source := []
    volume_by_beat := []
    volume_by_district := []
    volume_by_dow := []
    volume_by_shift := []
    heatmap := []
    map_data := none
    other := [] }

/-- A payload with three named natures and one without a name. -/
def exNature : Payload :=
  { emptyPayload with
    volume_by_nature :=
      [named "ALARM" 4, [("name", .null), ("volume", .num (.fin 9))], named "THEFT" 7,
        named "NOISE" 4] }

end CallVolume

/-- An entry `{id: id, volume: volume}`. -/
def counted (id volume : ℚ) : Obj :=
  [("id", .num (.fin id)), ("volume", .num (.fin volume))]

/-- The number `i` as a value. -/
def numOfNat (i : Nat) : JSVal :=
  .num (.fin ((i : ℕ) : ℚ))

/-- The natural number a value stands for; zero when it is not a number. -/
def natOfVal : JSVal → Nat
  | .num (.fin q) => q.num.toNat
  | _ => 0

/-- The natural number the id of an entry stands for. -/
def idNat (d : Obj) : Nat :=
  natOfVal (d.get "id")

/-- The volume of the first entry of `raw` whose id is the number `i`. -/
def volumeOfId (raw : List Obj) (i : Nat) : JSVal :=
  match raw.find? (fun d => decide (d.get "id" = numOfNat i)) with
  | some d => d.get "volume"
  | none => .undefined

/-- The point `{id: i, volume: volume of entry i, name: name}`. -/
def labelPoint (raw : List Obj) (i : Nat) (name : String) : Obj :=
  [("id", numOfNat i), ("volume", volumeOfId raw i), ("name", .str name)]

namespace CallVolume

/-- A payload with one entry for each day id, out of order. -/
def exDow : Payload :=
  { emptyPayload with
    volume_by_dow :=
      [counted 3 30, counted 0 5, counted 6 60, counted 1 10, counted 5 50, counted 2 20,
        counted 4 40] }

end CallVolume

/-- A number with at most two decimals, or NaN: what `d3.round(x, 2)` returns. -/
def Rounded2 (n : JSNum) : Prop :=
  n = .nan ∨ ∃ k : ℤ, n = .fin ((k : ℚ) / 100)

namespace OfficerAllocation

/-- The bucket `{avg_volume: v}` of one status. -/
def bucket (v : ℚ) : JSVal :=
  .obj [("avg_volume", .num (.fin v))]

/-- A payload with one time of day and one beat and district on duty. -/
def exAlloc : Payload :=
  { allocation_over_time :=
      .obj [("08:00:00", .obj
        [("OUT OF SERVICE", bucket (1236 / 1000)),
          ("IN CALL - DIRECTED PATROL", bucket (2 / 10)),
          ("IN CALL - SELF INITIATED", bucket (3 / 10)),
          ("IN CALL - CITIZEN INITIATED", bucket (4 / 10)),
          ("PATROL", bucket (1234 / 1000))])]
    on_duty_by_beat := [[("beat", .str "B1"), ("on_duty", .num (.fin (2345 / 1000)))]]
    on_duty_by_district := [[("district", .str "D1"), ("on_duty", .num (.fin (5 / 2)))]]
    other := [] }

/-- Every key of `allocation_over_time` has its five buckets and a time that
`indate.parse` accepts without a throw. -/
def RowsBuild (h : Host) (data : Payload) : Prop :=
  ∀ k ∈ keys data.allocation_over_time, ∃ row, allocationRow h data.allocation_over_time k = .ok row

end OfficerAllocation

namespace CallVolume

/-- An entry `{date: date, volume: volume}`. -/
def dated (date : String) (volume : ℚ) : Obj :=
  [("date", .str date), ("volume", .num (.fin volume))]

/-- A payload whose `volume_by_date` list is not in the order of the dates. -/
def exDates : Payload :=
  { emptyPayload with
    volume_by_date := [dated "2024-01-02T00:00:00" 3, dated "2024-01-01T00:00:00" 5] }

/-- What the host parser makes of the date of an entry, `null` when it throws. -/
def parsedDate (h : Host) (e : Obj) : JSVal :=
  match h.d3_time_parse "%Y-%m-%dT%H:%M:%S" (e.get "date") with
  | .ok x => x
  | .error _ => .null

end CallVolume

/-- The string a value is; empty when it is not a string. -/
def strOf : JSVal → String
  | .str s => s
  | _ => ""

/-- The rational a value is; zero when it is not a finite number. -/
def ratOf : JSVal → ℚ
  | .num (.fin q) => q
  | _ => 0

/-- Ascending order of the keys under the operator `<` of JavaScript: no element
is followed by one with a smaller key. -/
def Ascending {α : Type} (h : Host) (key : α → JSVal) (l : List α) : Prop :=
  l.Pairwise (fun a b => jsLt h (key b) (key a) = false)

namespace CallVolume

/-- A payload with named and nameless nature groups and beats. -/
def exCategories : Payload :=
  { emptyPayload with
    volume_by_nature_group :=
      [named "TRAFFIC" 12, [("name", .null), ("volume", .num (.fin 40))], named "ALARM" 7]
    volume_by_beat :=
      [named "B2" 30, [("volume", .num (.fin 4))], named "B1" 11, named "B3" 30] }

end CallVolume

/-- The key under which a name is filed in a map: the name itself when it is a
string, `null` and `undefined` spelled out, the property key of the value
otherwise. -/
def nameKey (h : Host) : JSVal → String
  | .str s => s
  | .null => "null"
  | .undefined => "undefined"
  | v => toPropertyKey h v

/-- The volume of the last entry of `list` whose name is filed under `k`. -/
def lastVolume (h : Host) (list : List Obj) (k : String) : Option JSVal :=
  ((list.filter (fun d => decide (nameKey h (d.get "name") = k))).getLast?).map
    (fun d => d.get "volume")

/-- What the region map of a list must be: a mapping (no key twice) that binds
each key other than `__proto__` to the volume of the last entry filed under it,
and nothing else. -/
def RegionMapOf (h : Host) (list : List Obj) (m : Obj) : Prop :=
  (m.map Prod.fst).Nodup ∧
  ∀ k, m.lookup k = if k = "__proto__" then none else lastVolume h list k

namespace CallVolume

/-- A payload whose beat list repeats a name and has a nameless entry. -/
def exRegions : Payload :=
  { emptyPayload with
    volume_by_beat :=
      [named "B1" 3, [("name", .null), ("volume", .num (.fin 8))], named "B2" 5, named "B1" 9]
    volume_by_district := [named "D1" 17] }

/-- A payload with a beat called `__proto__`. -/
def exProto : Payload :=
  { emptyPayload with volume_by_beat := [named "__proto__" 3, named "B1" 5] }

end CallVolume

namespace CallVolume

/-- A heatmap entry `{dow_received, hour_received, volume}`. -/
def heatEntry (day hour volume : ℚ) : Obj :=
  [("dow_received", .num (.fin day)), ("hour_received", .num (.fin hour)),
    ("volume", .num (.fin volume))]

/-- A payload whose heatmap has 168 entries for two positions of the grid only. -/
def exDense : Payload :=
  { emptyPayload with
    heatmap := List.replicate 100 (heatEntry 2 5 1) ++ List.replicate 68 (heatEntry 0 0 4) }

/-- An input entry as a cell `{day, hour, value}`: its three fields as numbers. -/
def cellOf (h : Host) (e : Obj) : Obj :=
  [("day", .num (toNumber h (e.get "dow_received"))),
    ("hour", .num (toNumber h (e.get "hour_received"))),
    ("value", .num (toNumber h (e.get "volume")))]

/-- The cell `{day: day, hour: hour, value: value}`. -/
def heatPoint (day hour value : ℚ) : Obj :=
  [("day", .num (.fin day)), ("hour", .num (.fin hour)), ("value", .num (.fin value))]

/-- The position of an output cell in the week, `day * 24 + hour`. -/
def gridKey (c : Obj) : ℚ :=
  ratOf (c.get "day") * 24 + ratOf (c.get "hour")

end CallVolume

namespace CallVolume

/-- A store in its loading state. -/
def exStore : Store :=
  { loading := .bool true
    initialload := .bool true
    data := emptyPayload
    rest := fun _ => .undefined }

/-- What `cleanupData` returns on `exNature`. -/
def exCleaned : Payload :=
  match cleanupData refHost exConfig exNature with
  | .ok p => p
  | .error _ => emptyPayload

end CallVolume

namespace OfficerAllocation

/-- The payload with nothing in it. -/
def emptyPayload : Payload :=
  { allocation_over_time := .obj []
    on_duty_by_beat := []
    on_duty_by_district := []
    other := [] }

/-- A store in its loading state. -/
def exStore : Store :=
  { loading := .bool true
    initialload := .bool true
    data := emptyPayload
    rest := fun _ => .undefined }

/-- What `cleanupData` returns on `exAlloc`. -/
def exCleaned : Payload :=
  match cleanupData refHost exAlloc with
  | .ok p => p
  | .error _ => emptyPayload

end OfficerAllocation

namespace CallVolume

/-- A payload whose only `volume_by_date` entry has no date. -/
def exDateless : Payload :=
  { emptyPayload with volume_by_date := [[("volume", .num (.fin 3))]] }

end CallVolume

namespace OfficerAllocation

/-- A payload whose only time of day has none of the five buckets. -/
def exBucketless : Payload :=
  { emptyPayload with allocation_over_time := .obj [("08:00:00", .obj [])] }

end OfficerAllocation

/-- The label of an id: the table entry at index `id` when `id` is one of the
numbers `0 .. table.length - 1`, `undefined` otherwise. -/
def labelFor (table : List String) (id : JSVal) : JSVal :=
  match (List.range table.length).find? (fun i => decide (id = numOfNat i)) with
  | some i => .str (table.getD i "")
  | none => .undefined

/-- The point expected for an entry: its id, its volume, the label of its id. -/
def expectedPoint (table : List String) (e : Obj) : Obj :=
  [("id", e.get "id"), ("volume", e.get "volume"), ("name", labelFor table (e.get "id"))]

/-- What an id-labelled series must be: one expected point per input entry, in
ascending order of id. -/
def LabelledSeries (h : Host) (table : List String) (raw vals : List Obj) : Prop :=
  vals.Perm (raw.map (expectedPoint table)) ∧
  vals.Pairwise (fun a b => ratOf (a.get "id") ≤ ratOf (b.get "id")) ∧
  Ascending h (fun d => d.get "id") vals

namespace CallVolume

/-- A payload whose id-labelled lists have ids outside the tables. -/
def exLabels : Payload :=
  { emptyPayload with
    volume_by_source := [counted 1 8, counted 5 2, counted 0 3]
    volume_by_dow := [counted 9 1, counted 2 6, counted (-1) 4]
    volume_by_shift := [counted (3 / 2) 7, counted 1 9] }

end CallVolume

namespace CallVolume

/-- A payload whose only source entry has the id `length`. -/
def exLength : Payload :=
  { emptyPayload with
    volume_by_source := [[("id", .str "length"), ("volume", .num (.fin 4))]] }

end CallVolume

/-! ## call_list.js -/

/-- `Math.ceil`. -/
def Math_ceil : JSNum → JSNum
  | .nan => .nan
  | .fin q => .fin ((⌈q⌉ : ℤ) : ℚ)

/-- `Math.min` of two numbers: NaN as soon as one is NaN. -/
def Math_min : JSNum → JSNum → JSNum
  | .fin a, .fin b => .fin (min a b)
  | _, _ => .nan

/-- Difference of two numbers. -/
def JSNum.sub : JSNum → JSNum → JSNum
  | .fin a, .fin b => .fin (a - b)
  | _, _ => .nan

namespace CallList

/-- The slots of the call list that the paging code reads and writes.  `page` and
`perPage` are numbers (1 and 50 at the start, then whatever the handlers set);
`calls` is the last response of the API. -/
structure State where
  page : JSNum
  perPage : JSNum
  calls : Obj
  loading : JSVal

/-- The computed property `topCount`:
`Math.min(calls.count, page * perPage)`. -/
def topCount (h : Host) (s : State) : JSNum :=
  let count := s.page.mul s.perPage
  Math_min (toNumber h (s.calls.get "count")) count

/-- The computed property `maxPage`: `Math.ceil(calls.count / perPage)`. -/
def maxPage (h : Host) (s : State) : JSNum :=
  Math_ceil ((toNumber h (s.calls.get "count")).div s.perPage)

/-- The statement `this.set("page", value)`: the observer of `page` runs
`reloadCalls`, which sets `loading` before it sends its request. -/
def setPage (s : State) (value : JSNum) : State :=
  { s with page := value, loading := .bool true }

/-- The handler of `Pagination.nextPage`. -/
def nextPage (h : Host) (s : State) : State :=
  if s.page.lt (maxPage h s) then setPage s (s.page.add (.fin 1)) else s

/-- The handler of `Pagination.prevPage`. -/
def prevPage (s : State) : State :=
  if (JSNum.fin 1).lt s.page then setPage s (s.page.sub (.fin 1)) else s

/-- The second of three pages of 50 calls out of 120. -/
def exState : State :=
  { page := .fin 2
    perPage := .fin 50
    calls := [("count", .num (.fin 120))]
    loading := .bool false }

end CallList

end CFS

/-! # Theorems -/

namespace CFS

/-! ## Sorting and traversal lemmas -/


theorem map_value_orderedInsert {α : Type} (r : Ranked α → Ranked α → Prop) [DecidableRel r]
    (le : α → α → Prop) [DecidableRel le] (x : Ranked α) :
    ∀ L : List (Ranked α), (∀ y ∈ L, (r x y ↔ le x.value y.value)) →
      (L.orderedInsert r x).map (fun t => t.value)
        = (L.map (fun t => t.value)).orderedInsert le x.value
  | [], _ => rfl
  | y :: L, hL => by
    have hy := hL y (List.mem_cons_self _ _)
    have ih := map_value_orderedInsert r le x L (fun z hz => hL z (List.mem_cons_of_mem _ hz))
    by_cases hr : r x y
    · have hle : le x.value y.value := hy.mp hr
      simp [List.orderedInsert, hr, hle]
    · have hle : ¬ le x.value y.value := fun c => hr (hy.mpr c)
      simp [List.orderedInsert, hr, hle, ih]

/-- The ranked form of the elements of a list, positions counted from `n`. -/
theorem mem_ranked {α : Type} (f : α → JSVal) :
    ∀ (l : List α) (n : Nat) (x : Ranked α),
      x ∈ (l.enumFrom n).map (fun p => (⟨p.2, p.1, f p.2⟩ : Ranked α)) →
        x.value ∈ l ∧ n ≤ x.index ∧ x.criteria = f x.value
  | [], _, _, hx => by simp at hx
  | a :: l, n, x, hx => by
    simp only [List.enumFrom_cons, List.map_cons, List.mem_cons] at hx
    rcases hx with hx | hx
    · subst hx; simp
    · have := mem_ranked f l (n + 1) x hx
      exact ⟨List.mem_cons_of_mem _ this.1, by omega, this.2.2⟩

theorem sortBy_from_eq {α : Type} (h : Host) (f : α → JSVal) (le : α → α → Prop)
    [DecidableRel le] :
    ∀ (l : List α) (n : Nat),
      (∀ a ∈ l, ∀ b ∈ l, ∀ i j : Nat, i < j →
        (compareRanked h (⟨a, i, f a⟩ : Ranked α) ⟨b, j, f b⟩ ≤ 0 ↔ le a b)) →
      (arraySort (compareRanked h)
        ((l.enumFrom n).map (fun p => (⟨p.2, p.1, f p.2⟩ : Ranked α)))).map (fun r => r.value)
        = l.insertionSort le
  | [], _, _ => rfl
  | a :: l, n, hl => by
    have ih := sortBy_from_eq h f le l (n + 1)
      (fun a ha b hb => hl a (List.mem_cons_of_mem _ ha) b (List.mem_cons_of_mem _ hb))
    simp only [arraySort, List.enumFrom_cons, List.map_cons, List.insertionSort] at ih ⊢
    rw [map_value_orderedInsert _ le, ih]
    intro y hy
    have hy2 := (List.perm_insertionSort _ _).mem_iff.mp hy
    obtain ⟨hv, hi, hc⟩ := mem_ranked f l (n + 1) y hy2
    have := hl a (List.mem_cons_self _ _) y.value (List.mem_cons_of_mem _ hv) n y.index (by omega)
    rw [← hc] at this
    exact this

/-- When the comparator of `_.sortBy` agrees with a relation `le` on the elements,
earlier element first, `_.sortBy` is the stable insertion sort by `le`. -/
theorem sortBy_eq_insertionSort {α : Type} (h : Host) (f : α → JSVal) (le : α → α → Prop)
    [DecidableRel le] (l : List α)
    (hl : ∀ a ∈ l, ∀ b ∈ l, ∀ i j : Nat, i < j →
      (compareRanked h (⟨a, i, f a⟩ : Ranked α) ⟨b, j, f b⟩ ≤ 0 ↔ le a b)) :
    sortBy h f l = l.insertionSort le :=
  sortBy_from_eq h f le l 0 hl

theorem sortBy_perm {α : Type} (h : Host) (f : α → JSVal) (l : List α) :
    (sortBy h f l).Perm l := by
  unfold sortBy arraySort
  refine ((List.perm_insertionSort _ _).map _).trans ?_
  have : ∀ (l : List α) (n : Nat),
      ((l.enumFrom n).map (fun p => (⟨p.2, p.1, f p.2⟩ : Ranked α))).map (fun r => r.value) = l := by
    intro l
    induction l with
    | nil => intro n; rfl
    | cons a l ih => intro n; simp [List.enumFrom_cons, ih]
  rw [List.enum, this]

/-- The comparator on two numeric criteria. -/
theorem compareRanked_num {α : Type} (h : Host) (a b : α) (i j : Nat) (hij : i < j) (x y : ℚ) :
    compareRanked h (⟨a, i, .num (.fin x)⟩ : Ranked α) ⟨b, j, .num (.fin y)⟩ ≤ 0 ↔ x ≤ y := by
  simp only [compareRanked, strictEq, JSNum.strictEq, jsGt, jsLt, toPrimitive, primToNumber,
    JSNum.lt]
  by_cases hxy : x = y
  · subst hxy; simp; omega
  · rcases lt_or_gt_of_ne hxy with hlt | hgt
    · have : ¬ y < x := not_lt.mpr hlt.le
      simp [hxy, hlt, this, hlt.le]
    · have : ¬ x ≤ y := not_le.mpr hgt
      simp [hxy, hgt, this]

theorem lexLt_irrefl : ∀ l : List Nat, lexLt l l = false
  | [] => rfl
  | a :: l => by simp [lexLt, lexLt_irrefl l]

theorem lexLt_asymm : ∀ l m : List Nat, lexLt l m = true → lexLt m l = false
  | [], [], h => by simp [lexLt] at h
  | [], _ :: _, _ => rfl
  | _ :: _, [], h => by simp [lexLt] at h
  | a :: l, b :: m, h => by
    unfold lexLt at h ⊢
    by_cases hab : a < b
    · have : ¬ b < a := by omega
      simp [this, hab]
    · by_cases hba : b < a
      · simp [hab, hba] at h
      · simp [hab, hba] at h ⊢
        exact lexLt_asymm l m h

/-- Negative transitivity: what is below `n` is below `m` or `m` is below `n`. -/
theorem lexLt_cotrans : ∀ l m n : List Nat, lexLt l n = true → lexLt l m = true ∨ lexLt m n = true
  | [], [], n, h => Or.inr h
  | [], _ :: _, _, _ => Or.inl rfl
  | _ :: _, _, [], h => by simp [lexLt] at h
  | a :: l, [], c :: n, _ => Or.inr rfl
  | a :: l, b :: m, c :: n, h => by
    unfold lexLt at h ⊢
    by_cases hac : a < c
    · by_cases hab : a < b
      · simp [hab]
      · have : b < c := by omega
        simp [this]
    · by_cases hca : c < a
      · simp [hac, hca] at h
      · have hEq : a = c := by omega
        subst hEq
        simp at h
        by_cases hab : a < b
        · simp [hab]
        · by_cases hba : b < a
          · simp [hba]
          · simp [hab, hba]
            exact lexLt_cotrans l m n h

/-- The comparator on two string criteria. -/
theorem compareRanked_str {α : Type} (h : Host) (a b : α) (i j : Nat) (hij : i < j)
    (s t : String) :
    compareRanked h (⟨a, i, .str s⟩ : Ranked α) ⟨b, j, .str t⟩ ≤ 0
      ↔ lexLt (codeUnits t) (codeUnits s) = false := by
  simp only [compareRanked, strictEq, jsGt, jsLt, toPrimitive]
  by_cases hst : s = t
  · subst hst; simp [lexLt_irrefl]; omega
  · by_cases hgt : lexLt (codeUnits t) (codeUnits s) = true
    · simp [hst, hgt]
    · have hgt2 : lexLt (codeUnits t) (codeUnits s) = false := by simpa using hgt
      by_cases hlt : lexLt (codeUnits s) (codeUnits t) = true
      · simp [hst, hgt2, hlt]
      · have hlt2 : lexLt (codeUnits s) (codeUnits t) = false := by simpa using hlt
        simp [hst, hgt2, hlt2]; omega


theorem sortBy_num {α : Type} (h : Host) (f : α → JSVal) (g : α → ℚ) (l : List α)
    (hf : ∀ a ∈ l, f a = .num (.fin (g a))) :
    sortBy h f l = l.insertionSort (fun a b => g a ≤ g b) := by
  apply sortBy_eq_insertionSort
  intro a ha b hb i j hij
  rw [hf a ha, hf b hb]
  exact compareRanked_num h a b i j hij _ _

theorem sortBy_str {α : Type} (h : Host) (f : α → JSVal) (s : α → String) (l : List α)
    (hf : ∀ a ∈ l, f a = .str (s a)) :
    sortBy h f l
      = l.insertionSort (fun a b => lexLt (codeUnits (s b)) (codeUnits (s a)) = false) := by
  apply sortBy_eq_insertionSort
  intro a ha b hb i j hij
  rw [hf a ha, hf b hb]
  exact compareRanked_str h a b i j hij _ _

theorem insertionSort_num_sorted {α : Type} (g : α → ℚ) (l : List α) :
    (l.insertionSort (fun a b => g a ≤ g b)).Pairwise (fun a b => g a ≤ g b) := by
  haveI : IsTotal α (fun a b => g a ≤ g b) := ⟨fun a b => le_total (g a) (g b)⟩
  haveI : IsTrans α (fun a b => g a ≤ g b) := ⟨fun a b c hab hbc => le_trans hab hbc⟩
  exact List.sorted_insertionSort (fun a b => g a ≤ g b) l

theorem insertionSort_str_sorted {α : Type} (s : α → String) (l : List α) :
    (l.insertionSort (fun a b => lexLt (codeUnits (s b)) (codeUnits (s a)) = false)).Pairwise
      (fun a b => lexLt (codeUnits (s b)) (codeUnits (s a)) = false) := by
  haveI : IsTotal α (fun a b => lexLt (codeUnits (s b)) (codeUnits (s a)) = false) :=
    ⟨fun a b => by
      by_cases hba : lexLt (codeUnits (s b)) (codeUnits (s a)) = true
      · exact Or.inr (lexLt_asymm _ _ hba)
      · exact Or.inl (by simpa using hba)⟩
  haveI : IsTrans α (fun a b => lexLt (codeUnits (s b)) (codeUnits (s a)) = false) :=
    ⟨fun a b c hab hbc => by
      by_contra hca
      have hca2 : lexLt (codeUnits (s c)) (codeUnits (s a)) = true := by simpa using hca
      rcases lexLt_cotrans _ (codeUnits (s b)) _ hca2 with h1 | h1
      · rw [hbc] at h1; cases h1
      · rw [hab] at h1; cases h1⟩
  exact List.sorted_insertionSort _ l

/-- Sorting by a natural-number key that enumerates `0 .. n-1`: the result is the
table of the elements by key. -/
theorem insertionSort_eq_range_map {α : Type} (l : List α) (k : α → ℕ) (E : ℕ → α) (n : ℕ)
    (hperm : (l.map k).Perm (List.range n)) (hE : ∀ c ∈ l, c = E (k c)) :
    l.insertionSort (fun a b => ((k a : ℕ) : ℚ) ≤ k b) = (List.range n).map E := by
  have hs := insertionSort_num_sorted (fun a => ((k a : ℕ) : ℚ)) l
  have hp := List.perm_insertionSort (fun a b => ((k a : ℕ) : ℚ) ≤ k b) l
  have hkeys : (l.insertionSort (fun a b => ((k a : ℕ) : ℚ) ≤ k b)).map k = List.range n := by
    apply List.eq_of_perm_of_sorted ((hp.map k).trans hperm) _ (List.sorted_le_range n)
    rw [List.Sorted, List.pairwise_map]
    exact hs.imp (fun hab => by exact_mod_cast hab)
  have hmap : (l.insertionSort (fun a b => ((k a : ℕ) : ℚ) ≤ k b)).map (fun c => E (k c))
      = l.insertionSort (fun a b => ((k a : ℕ) : ℚ) ≤ k b) := by
    conv_rhs => rw [← List.map_id (l.insertionSort (fun a b => ((k a : ℕ) : ℚ) ≤ k b))]
    apply List.map_congr_left
    intro c hc
    exact (hE c (hp.mem_iff.mp hc)).symm
  rw [← hmap, ← hkeys, List.map_map]
  rfl

theorem mapE_ok {α β : Type} (f : α → Except JSErr β) (g : α → β) :
    ∀ l : List α, (∀ a ∈ l, f a = .ok (g a)) → mapE f l = .ok (l.map g)
  | [], _ => rfl
  | a :: l, hl => by
    have ih := mapE_ok f g l (fun b hb => hl b (List.mem_cons_of_mem _ hb))
    simp [mapE, hl a (List.mem_cons_self _ _), ih]

theorem mapE_of_forall {α β : Type} (f : α → Except JSErr β) :
    ∀ l : List α, (∀ a ∈ l, ∃ b, f a = .ok b) → ∃ bs, mapE f l = .ok bs
  | [], _ => ⟨[], rfl⟩
  | a :: l, hl => by
    obtain ⟨bs, hbs⟩ := mapE_of_forall f l (fun b hb => hl b (List.mem_cons_of_mem _ hb))
    obtain ⟨b, hb⟩ := hl a (List.mem_cons_self _ _)
    exact ⟨b :: bs, by simp [mapE, hb, hbs]⟩

/-! ## The heatmap grid -/

namespace CallVolume

theorem fillGrid_eq_foldl (cells : List HeatCell) :
    fillGrid cells = gridPositions.foldl (fun acc p => fillStep acc p.1 p.2) cells := by
  unfold fillGrid gridPositions
  generalize List.range 7 = is
  induction is generalizing cells with
  | nil => rfl
  | cons i is ih =>
    simp only [List.foldl_cons, List.flatMap_cons, List.foldl_append, List.foldl_map]
    exact ih _

theorem findData_empty (i j a b : Nat) :
    findData (.fin a) (.fin b) ⟨.fin i, .fin j, none⟩ = decide ((i, j) = (a, b)) := by
  simp [findData, JSNum.strictEq]

theorem foldl_fillStep (ps : List (Nat × Nat)) (hps : ps.Nodup) (cells : List HeatCell) :
    ps.foldl (fun acc p => fillStep acc p.1 p.2) cells
      = cells ++ (ps.filter
          (fun p => (cells.find? (findData (.fin p.1) (.fin p.2))).isNone)).map
            (fun p => (⟨.fin p.1, .fin p.2, none⟩ : HeatCell)) := by
  induction ps generalizing cells with
  | nil => simp
  | cons p ps ih =>
    have hp : p ∉ ps := (List.nodup_cons.mp hps).1
    have hps2 : ps.Nodup := (List.nodup_cons.mp hps).2
    simp only [List.foldl_cons]
    rw [ih hps2]
    by_cases hocc : (cells.find? (findData (.fin p.1) (.fin p.2))).isNone
    · have hstep : fillStep cells p.1 p.2 = cells ++ [⟨.fin p.1, .fin p.2, none⟩] := by
        simp [fillStep, hocc]
      rw [hstep, List.filter_cons_of_pos (by simpa using hocc), List.map_cons, List.append_assoc,
        List.singleton_append]
      congr 3
      apply List.filter_congr
      intro q hq
      have hne : ¬ (p = q) := fun e => hp (e ▸ hq)
      have hne2 : ¬ (p.1 = q.1 ∧ p.2 = q.2) := fun e => hne (Prod.ext e.1 e.2)
      simp [List.find?_append, findData_empty, hne]
    · have hstep : fillStep cells p.1 p.2 = cells := by
        simp [fillStep, hocc]
      rw [hstep, List.filter_cons_of_neg (by simpa using hocc)]

set_option maxRecDepth 100000 in
theorem gridPositions_nodup : gridPositions.Nodup := by decide

set_option maxRecDepth 100000 in
theorem gridPositions_keys :
    gridPositions.map (fun p => p.1 * 24 + p.2) = List.range 168 := by decide

theorem heatKey_nat (c : HeatCell) (d hr : Nat) (hd : c.day = .fin d) (hh : c.hour = .fin hr) :
    heatKey c = .fin ((d * 24 + hr : ℕ) : ℚ) ∧ keyNat c = d * 24 + hr := by
  have h1 : heatKey c = .fin ((d * 24 + hr : ℕ) : ℚ) := by
    simp [heatKey, hd, hh, JSNum.mul, JSNum.add]
  refine ⟨h1, ?_⟩
  unfold keyNat
  rw [h1]
  simp only [Rat.num_natCast, Int.toNat_ofNat]

theorem findData_iff (a b : Nat) (c : HeatCell) :
    findData (.fin a) (.fin b) c = true ↔ c.day = .fin a ∧ c.hour = .fin b := by
  rcases c with ⟨day, hour, v⟩
  cases day <;> cases hour <;> simp [findData, JSNum.strictEq]

theorem pairwise_cases {α : Type} (R : α → α → Prop) (hsymm : ∀ a b, R a b → R b a) :
    ∀ l : List α, l.Pairwise R → ∀ a ∈ l, ∀ b ∈ l, a = b ∨ R a b
  | [], _, a, ha, _, _ => by cases ha
  | x :: l, hl, a, ha, b, hb => by
    rw [List.pairwise_cons] at hl
    rcases List.mem_cons.mp ha with ha2 | ha2 <;> rcases List.mem_cons.mp hb with hb2 | hb2
    · exact Or.inl (ha2.trans hb2.symm)
    · rw [ha2]; exact Or.inr (hl.1 b hb2)
    · rw [hb2]; exact Or.inr (hsymm _ _ (hl.1 a ha2))
    · exact pairwise_cases R hsymm l hl.2 a ha2 b hb2

theorem fillGrid_facts (cells : List HeatCell) (hwf : ∀ c ∈ cells, CellOnGrid c)
    (hdist : cells.Pairwise (fun a b => ¬ (a.day = b.day ∧ a.hour = b.hour))) :
    (∀ c ∈ fillGrid cells, heatKey c = .fin ((keyNat c : ℕ) : ℚ) ∧ c = cellAt cells (keyNat c))
      ∧ ((fillGrid cells).map keyNat).Perm (List.range 168) := by
  have hnodup : gridPositions.Nodup := gridPositions_nodup
  have hgrid : ∀ p ∈ gridPositions, p.1 < 7 ∧ p.2 < 24 := by
    intro p hp
    simp only [gridPositions, List.mem_flatMap, List.mem_map, List.mem_range] at hp
    obtain ⟨i, hi, j, hj, rfl⟩ := hp
    exact ⟨hi, hj⟩
  have hgridmem : ∀ i j, i < 7 → j < 24 → (i, j) ∈ gridPositions := by
    intro i j hi hj
    simp only [gridPositions, List.mem_flatMap, List.mem_map, List.mem_range]
    exact ⟨i, hi, j, hj, rfl⟩
  rw [fillGrid_eq_foldl, foldl_fillStep _ hnodup]
  -- facts about input cells
  have hcell : ∀ c ∈ cells, ∃ d hr : ℕ, d < 7 ∧ hr < 24 ∧ c.day = .fin d ∧ c.hour = .fin hr ∧
      keyNat c = d * 24 + hr ∧ heatKey c = .fin ((keyNat c : ℕ) : ℚ) ∧ c = cellAt cells (keyNat c) := by
    intro c hc
    obtain ⟨d, hr, hd, hh, e1, e2⟩ := hwf c hc
    obtain ⟨k1, k2⟩ := heatKey_nat c d hr e1 e2
    refine ⟨d, hr, hd, hh, e1, e2, k2, by rw [k2]; exact k1, ?_⟩
    rw [k2]
    have hdiv : (d * 24 + hr) / 24 = d := by omega
    have hmod : (d * 24 + hr) % 24 = hr := by omega
    unfold cellAt
    rw [hdiv, hmod]
    cases hf : cells.find? (findData (.fin (d : ℚ)) (.fin (hr : ℚ))) with
    | none =>
      have := List.find?_eq_none.mp hf c hc
      exact absurd ((findData_iff d hr c).mpr ⟨e1, e2⟩) (by simpa using this)
    | some c2 =>
      have hc2 := List.mem_of_find?_eq_some hf
      have hp := (findData_iff d hr c2).mp (List.find?_some hf)
      rcases pairwise_cases _ (fun a b hab hba => hab ⟨hba.1.symm, hba.2.symm⟩) cells hdist
        c hc c2 hc2 with heq | hne
      · simp [heq]
      · exact absurd ⟨e1.trans hp.1.symm, e2.trans hp.2.symm⟩ hne
  have hempty : ∀ p ∈ gridPositions.filter
        (fun p => (cells.find? (findData (.fin p.1) (.fin p.2))).isNone),
      keyNat (⟨.fin p.1, .fin p.2, none⟩ : HeatCell) = p.1 * 24 + p.2 ∧
      heatKey (⟨.fin p.1, .fin p.2, none⟩ : HeatCell) = .fin ((p.1 * 24 + p.2 : ℕ) : ℚ) ∧
      (⟨.fin p.1, .fin p.2, none⟩ : HeatCell) = cellAt cells (p.1 * 24 + p.2) := by
    intro p hp
    obtain ⟨hpg, hocc⟩ := List.mem_filter.mp hp
    obtain ⟨h7, h24⟩ := hgrid p hpg
    obtain ⟨k1, k2⟩ := heatKey_nat (⟨.fin p.1, .fin p.2, none⟩ : HeatCell) p.1 p.2 rfl rfl
    refine ⟨k2, k1, ?_⟩
    have hdiv : (p.1 * 24 + p.2) / 24 = p.1 := by omega
    have hmod : (p.1 * 24 + p.2) % 24 = p.2 := by omega
    unfold cellAt
    rw [hdiv, hmod]
    have : cells.find? (findData (.fin (p.1 : ℚ)) (.fin (p.2 : ℚ))) = none := by
      simpa using hocc
    rw [this]
  refine ⟨?_, ?_⟩
  · intro c hc
    rcases List.mem_append.mp hc with hc | hc
    · obtain ⟨d, hr, _, _, _, _, _, k, e⟩ := hcell c hc
      exact ⟨k, e⟩
    · obtain ⟨p, hp, rfl⟩ := List.mem_map.mp hc
      obtain ⟨k2, k1, e⟩ := hempty p hp
      rw [k2]
      exact ⟨k1, e⟩
  · rw [List.perm_ext_iff_of_nodup _ (List.nodup_range 168)]
    · intro x
      simp only [List.map_append, List.mem_append, List.mem_range, List.map_map]
      constructor
      · rintro (hx | hx)
        · obtain ⟨c, hc, rfl⟩ := List.mem_map.mp hx
          obtain ⟨d, hr, hd, hh, _, _, k, _, _⟩ := hcell c hc
          omega
        · obtain ⟨p, hp, rfl⟩ := List.mem_map.mp hx
          have := (hempty p hp).1
          have hg := hgrid p (List.mem_filter.mp hp).1
          simp only [Function.comp] at *
          omega
      · intro hx
        by_cases hocc : (cells.find? (findData (.fin ((x / 24 : ℕ) : ℚ))
            (.fin ((x % 24 : ℕ) : ℚ)))).isNone
        · right
          refine List.mem_map.mpr ⟨(x / 24, x % 24), List.mem_filter.mpr
            ⟨hgridmem _ _ (by omega) (Nat.mod_lt _ (by norm_num)), hocc⟩, ?_⟩
          have := (hempty (x / 24, x % 24) (List.mem_filter.mpr
            ⟨hgridmem _ _ (by omega) (Nat.mod_lt _ (by norm_num)), hocc⟩)).1
          simp only [Function.comp] at *
          rw [this]
          omega
        · left
          cases hf : cells.find? (findData (.fin ((x / 24 : ℕ) : ℚ))
              (.fin ((x % 24 : ℕ) : ℚ))) with
          | none => simp [hf] at hocc
          | some c =>
            have hc := List.mem_of_find?_eq_some hf
            have hp := (findData_iff _ _ c).mp (List.find?_some hf)
            obtain ⟨k1, k2⟩ := heatKey_nat c _ _ hp.1 hp.2
            exact List.mem_map.mpr ⟨c, hc, by rw [k2]; omega⟩
    · rw [List.map_append, List.nodup_append]
      refine ⟨?_, ?_, ?_⟩
      · rw [List.Nodup, List.pairwise_map]
        refine hdist.imp_of_mem ?_
        intro a b ha hb hab hk
        obtain ⟨d, hr, hd, hh, e1, e2, k, _, _⟩ := hcell a ha
        obtain ⟨d2, hr2, hd2, hh2, f1, f2, k2, _, _⟩ := hcell b hb
        rw [k, k2] at hk
        have hdd : d = d2 := by omega
        have hhh : hr = hr2 := by omega
        subst hdd; subst hhh
        exact hab ⟨e1.trans f1.symm, e2.trans f2.symm⟩
      · rw [List.map_map]
        have hsub : (gridPositions.filter
            (fun p => (cells.find? (findData (.fin p.1) (.fin p.2))).isNone)).map
              (keyNat ∘ fun p => (⟨.fin p.1, .fin p.2, none⟩ : HeatCell))
            = (gridPositions.filter
            (fun p => (cells.find? (findData (.fin p.1) (.fin p.2))).isNone)).map
              (fun p => p.1 * 24 + p.2) := by
          apply List.map_congr_left
          intro p hp
          exact (hempty p hp).1
        rw [hsub]
        have : (gridPositions.map (fun p => p.1 * 24 + p.2)).Nodup := by
          rw [gridPositions_keys]; exact List.nodup_range 168
        exact (List.Nodup.sublist ((List.filter_sublist _).map _) this)
      · intro x hx1 hx2
        obtain ⟨c, hc, rfl⟩ := List.mem_map.mp hx1
        obtain ⟨q, hq, hqe⟩ := List.mem_map.mp hx2
        obtain ⟨p, hp, rfl⟩ := List.mem_map.mp hq
        obtain ⟨d, hr, hd, hh, e1, e2, k, _, _⟩ := hcell c hc
        have hk := (hempty p hp).1
        rw [hk, k] at hqe
        obtain ⟨hpg, hocc⟩ := List.mem_filter.mp hp
        obtain ⟨h7, h24⟩ := hgrid p hpg
        have h1 : p.1 = d := by omega
        have h2 : p.2 = hr := by omega
        have hnone : cells.find? (findData (.fin (p.1 : ℚ)) (.fin (p.2 : ℚ))) = none := by
          simpa using hocc
        have := List.find?_eq_none.mp hnone c hc
        rw [h1, h2] at this
        exact this ((findData_iff d hr c).mpr ⟨e1, e2⟩)

theorem cleanupData_dates (h : Host) (data : Payload)
    (hdates : ∀ e ∈ data.volume_by_date, ∃ pt, datePoint h e = .ok pt) :
    ∃ pts, mapE (datePoint h) data.volume_by_date = .ok pts :=
  mapE_of_forall _ _ hdates

theorem mem_fillGrid_of_mem (cells : List HeatCell) (c : HeatCell) (hc : c ∈ cells) :
    c ∈ fillGrid cells := by
  rw [fillGrid_eq_foldl, foldl_fillStep _ gridPositions_nodup]
  exact List.mem_append_left _ hc

theorem heatmap_sparse_eq (h : Host) (siteConfig : SiteConfig) (data : Payload)
    (hdates : ∀ e ∈ data.volume_by_date, ∃ pt, datePoint h e = .ok pt)
    (hlen : 0 < data.heatmap.length ∧ data.heatmap.length < 168)
    (hgrid : ∀ e ∈ data.heatmap, ∃ d hr : ℕ, d < 7 ∧ hr < 24 ∧
      toNumber h (e.get "dow_received") = .fin d ∧ toNumber h (e.get "hour_received") = .fin hr)
    (hdist : data.heatmap.Pairwise (fun a b =>
      ¬ (toNumber h (a.get "dow_received") = toNumber h (b.get "dow_received") ∧
        toNumber h (a.get "hour_received") = toNumber h (b.get "hour_received")))) :
    ∃ out, cleanupData h siteConfig data = .ok out ∧
      out.heatmap = (List.range 168).map
        (fun i => (cellAt (data.heatmap.map (heatCell h)) i).toObj) := by
  obtain ⟨pts, hpts⟩ := cleanupData_dates h data hdates
  have hwf : ∀ c ∈ data.heatmap.map (heatCell h), CellOnGrid c := by
    intro c hc
    obtain ⟨e, he, rfl⟩ := List.mem_map.mp hc
    exact hgrid e he
  have hd : (data.heatmap.map (heatCell h)).Pairwise
      (fun a b => ¬ (a.day = b.day ∧ a.hour = b.hour)) := by
    rw [List.pairwise_map]
    exact hdist
  obtain ⟨hfacts, hperm⟩ := fillGrid_facts _ hwf hd
  have hsort := sortBy_num h (fun d => JSVal.num (heatKey d)) (fun c => ((keyNat c : ℕ) : ℚ))
    (fillGrid (data.heatmap.map (heatCell h))) (fun c hc => by show JSVal.num (heatKey c) = _; rw [(hfacts c hc).1])
  rw [insertionSort_eq_range_map _ keyNat (cellAt (data.heatmap.map (heatCell h))) 168 hperm
    (fun c hc => (hfacts c hc).2)] at hsort
  refine ⟨_, by simp only [cleanupData, hpts]; rfl, ?_⟩
  have hcond : 0 < (data.heatmap.map (heatCell h)).length ∧
      (data.heatmap.map (heatCell h)).length < 24 * 7 := by
    simpa using hlen
  simp only [hcond, and_self, if_true, hsort, List.map_map]
  rfl

/-- Claim C1 (heatmap grid completion).  For a payload whose heatmap list has
between 1 and 167 entries, all on the grid (whole day `0..6`, whole hour `0..23`)
and pairwise distinct in `(day, hour)`, `cleanupData` returns a heatmap of exactly
168 cells; the cell at index `i` has `day = i / 24` and `hour = i % 24`, so the
cells ascend in `day * 24 + hour`; it carries the volume of the input entry at that
position as `value` when there is one, and no `value` at all when there is none. -/
theorem heatmap_grid_completion (h : Host) (siteConfig : SiteConfig) (data : Payload)
    (hdates : DatesParse h data)
    (hlen : 0 < data.heatmap.length ∧ data.heatmap.length < 168)
    (hgrid : HeatmapOnGrid h data.heatmap) (hdist : HeatmapDistinct h data.heatmap) :
    ∃ out, cleanupData h siteConfig data = .ok out ∧ out.heatmap.length = 168 ∧
      ∀ i, i < 168 →
        (∀ e ∈ data.heatmap,
          toNumber h (e.get "dow_received") = .fin ((i / 24 : ℕ) : ℚ) →
          toNumber h (e.get "hour_received") = .fin ((i % 24 : ℕ) : ℚ) →
          out.heatmap[i]? = some [("day", .num (.fin ((i / 24 : ℕ) : ℚ))),
            ("hour", .num (.fin ((i % 24 : ℕ) : ℚ))),
            ("value", .num (toNumber h (e.get "volume")))]) ∧
        ((∀ e ∈ data.heatmap,
          ¬ (toNumber h (e.get "dow_received") = .fin ((i / 24 : ℕ) : ℚ) ∧
            toNumber h (e.get "hour_received") = .fin ((i % 24 : ℕ) : ℚ))) →
          out.heatmap[i]? = some [("day", .num (.fin ((i / 24 : ℕ) : ℚ))),
            ("hour", .num (.fin ((i % 24 : ℕ) : ℚ)))]) := by
  obtain ⟨out, hout, hmap⟩ := heatmap_sparse_eq h siteConfig data hdates hlen hgrid hdist
  refine ⟨out, hout, by rw [hmap]; simp, ?_⟩
  intro i hi
  have hget : out.heatmap[i]? = some (cellAt (data.heatmap.map (heatCell h)) i).toObj := by
    rw [hmap, List.getElem?_map, List.getElem?_range hi]
    rfl
  rw [hget]
  constructor
  · intro e he hd hh
    have hwf : ∀ c ∈ data.heatmap.map (heatCell h), CellOnGrid c := by
      intro c hc
      obtain ⟨e, he, rfl⟩ := List.mem_map.mp hc
      exact hgrid e he
    have hdd : (data.heatmap.map (heatCell h)).Pairwise
        (fun a b => ¬ (a.day = b.day ∧ a.hour = b.hour)) := by
      rw [List.pairwise_map]
      exact hdist
    have hc : heatCell h e ∈ data.heatmap.map (heatCell h) := List.mem_map_of_mem _ he
    have hfact := ((fillGrid_facts _ hwf hdd).1 _ (mem_fillGrid_of_mem _ _ hc)).2
    have hk := (heatKey_nat (heatCell h e) (i / 24) (i % 24) hd hh).2
    have hi2 : i / 24 * 24 + i % 24 = i := by omega
    rw [hk, hi2] at hfact
    rw [← hfact]
    simp only [HeatCell.toObj, heatCell]
    rw [hd, hh]
  · intro hnone
    have : (data.heatmap.map (heatCell h)).find?
        (findData (.fin ((i / 24 : ℕ) : ℚ)) (.fin ((i % 24 : ℕ) : ℚ))) = none := by
      rw [List.find?_eq_none]
      intro c hc hfd
      obtain ⟨e, he, rfl⟩ := List.mem_map.mp hc
      exact hnone e he ((findData_iff _ _ _).mp hfd)
    simp only [cellAt, this, HeatCell.toObj]

/-- Witness of `heatmap_grid_completion` on a payload with two heatmap entries. -/
theorem heatmap_grid_completion_witness :
    DatesParse refHost exSparse ∧
    (0 < exSparse.heatmap.length ∧ exSparse.heatmap.length < 168) ∧
    HeatmapOnGrid refHost exSparse.heatmap ∧ HeatmapDistinct refHost exSparse.heatmap ∧
    ∃ out, cleanupData refHost exConfig exSparse = .ok out ∧ out.heatmap.length = 168 ∧
      ∀ i, i < 168 →
        (∀ e ∈ exSparse.heatmap,
          toNumber refHost (e.get "dow_received") = .fin ((i / 24 : ℕ) : ℚ) →
          toNumber refHost (e.get "hour_received") = .fin ((i % 24 : ℕ) : ℚ) →
          out.heatmap[i]? = some [("day", .num (.fin ((i / 24 : ℕ) : ℚ))),
            ("hour", .num (.fin ((i % 24 : ℕ) : ℚ))),
            ("value", .num (toNumber refHost (e.get "volume")))]) ∧
        ((∀ e ∈ exSparse.heatmap,
          ¬ (toNumber refHost (e.get "dow_received") = .fin ((i / 24 : ℕ) : ℚ) ∧
            toNumber refHost (e.get "hour_received") = .fin ((i % 24 : ℕ) : ℚ))) →
          out.heatmap[i]? = some [("day", .num (.fin ((i / 24 : ℕ) : ℚ))),
            ("hour", .num (.fin ((i % 24 : ℕ) : ℚ)))]) :=
  have hdates : DatesParse refHost exSparse := by
    intro e he
    simp only [exSparse, List.mem_singleton] at he
    subst he
    exact ⟨[("x", .date 1704153600000), ("y", .num (.fin 3))], rfl⟩
  have hlen : 0 < exSparse.heatmap.length ∧ exSparse.heatmap.length < 168 := by decide
  have hgrid : HeatmapOnGrid refHost exSparse.heatmap := by
    intro e he
    simp only [exSparse, List.mem_cons, List.mem_singleton, List.not_mem_nil, or_false] at he
    rcases he with rfl | rfl
    · exact ⟨1, 3, by norm_num, by norm_num, by simp [toNumber, toPrimitive, primToNumber, Obj.get, List.lookup], by simp [toNumber, toPrimitive, primToNumber, Obj.get, List.lookup]⟩
    · exact ⟨0, 23, by norm_num, by norm_num, by simp [toNumber, toPrimitive, primToNumber, Obj.get, List.lookup], by simp [toNumber, toPrimitive, primToNumber, Obj.get, List.lookup]⟩
  have hdist : HeatmapDistinct refHost exSparse.heatmap := by
    simp [HeatmapDistinct, exSparse, toNumber, toPrimitive, primToNumber, Obj.get, List.lookup]
  ⟨hdates, hlen, hgrid, hdist,
    heatmap_grid_completion refHost exConfig exSparse hdates hlen hgrid hdist⟩

end CallVolume

/-! ## Top twenty natures -/

namespace CallVolume

theorem cleanupData_eq (h : Host) (siteConfig : SiteConfig) (data : Payload) (pts : List Obj)
    (hpts : mapE (datePoint h) data.volume_by_date = .ok pts) :
    cleanupData h siteConfig data = .ok
      { volume_by_nature_group := [group "Call Volume"
          (sortBy h (fun d => d.get "name")
            (data.volume_by_nature_group.filter (fun d => truthy (d.get "name"))))]
        volume_by_nature := [group "Call Volume"
          ((sortBy h (fun d => .num (toNumber h (d.get "volume")).neg)
            (data.volume_by_nature.filter (fun d => truthy (d.get "name")))).take 20)]
        volume_by_date := [group "Call Volume" pts]
        volume_by_source := [group "Volume by Source"
          (sortBy h (fun d => d.get "id")
            (data.volume_by_source.map (labelled h ["Officer", "Citizen"])))]
        volume_by_beat := [group "Volume By Beat"
          (sortBy h (fun d => d.get "volume")
            (data.volume_by_beat.filter (fun d => truthy (d.get "name"))))]
        volume_by_district := data.volume_by_district
        volume_by_dow := [group "Volume By Day of Week"
          (sortBy h (fun d => d.get "id")
            (data.volume_by_dow.map
              (labelled h ["Mon", "Tue", "Wed", "Thu", "Fri", "Sat", "Sun"])))]
        volume_by_shift := [group "Volume By Shift"
          (sortBy h (fun d => d.get "id")
            (data.volume_by_shift.map (labelled h ["Shift 1", "Shift 2"])))]
        heatmap :=
          (sortBy h (fun d => .num (heatKey d))
            (if 0 < (data.heatmap.map (heatCell h)).length ∧
                (data.heatmap.map (heatCell h)).length < 24 * 7 then
              fillGrid (data.heatmap.map (heatCell h))
            else data.heatmap.map (heatCell h))).map HeatCell.toObj
        map_data :=
          if truthy siteConfig.use_beat then some (regionReduce h data.volume_by_beat)
          else if truthy siteConfig.use_district then
            some (regionReduce h data.volume_by_district)
          else data.map_data
        other := data.other } := by
  simp only [cleanupData, hpts]

/-- Claim C2 (top twenty natures).  When every named entry of `volume_by_nature`
has a numeric volume, `cleanupData` yields one group `"Call Volume"` whose points
`vals` are taken from the named input entries (with `rest` they make up exactly
those entries), number `min 20 n` for `n` named entries (20 as soon as 20 are
named, all of them below that), are in non-increasing order of volume, and are
the highest: every named entry left out has a volume at most that of every point
kept. -/
theorem top_twenty_natures (h : Host) (siteConfig : SiteConfig) (data : Payload)
    (hdates : DatesParse h data)
    (hvol : ∀ e ∈ data.volume_by_nature, truthy (e.get "name") = true →
      ∃ q : ℚ, toNumber h (e.get "volume") = .fin q) :
    ∃ out vals rest, cleanupData h siteConfig data = .ok out ∧
      out.volume_by_nature = [group "Call Volume" vals] ∧
      (data.volume_by_nature.filter (fun d => truthy (d.get "name"))).Perm (vals ++ rest) ∧
      vals.length
        = min 20 (data.volume_by_nature.filter (fun d => truthy (d.get "name"))).length ∧
      vals.Pairwise (fun a b => volumeOf h b ≤ volumeOf h a) ∧
      ∀ k ∈ vals, ∀ e ∈ rest, volumeOf h e ≤ volumeOf h k := by
  obtain ⟨pts, hpts⟩ := cleanupData_dates h data hdates
  have hkey : ∀ e ∈ data.volume_by_nature.filter (fun d => truthy (d.get "name")),
      (fun d : Obj => JSVal.num (toNumber h (d.get "volume")).neg) e
        = .num (.fin ((fun d => - volumeOf h d) e)) := by
    intro e he
    obtain ⟨hm, ht⟩ := List.mem_filter.mp he
    obtain ⟨q, hq⟩ := hvol e hm ht
    simp [volumeOf, hq, JSNum.neg, JSNum.toRat]
  have hsort := sortBy_num h _ _ _ hkey
  have hsorted := insertionSort_num_sorted (fun d => - volumeOf h d)
    (data.volume_by_nature.filter (fun d => truthy (d.get "name")))
  have hperm := List.perm_insertionSort (fun a b : Obj => - volumeOf h a ≤ - volumeOf h b)
    (data.volume_by_nature.filter (fun d => truthy (d.get "name")))
  refine ⟨_, _, ((data.volume_by_nature.filter (fun d => truthy (d.get "name"))).insertionSort
      (fun a b => - volumeOf h a ≤ - volumeOf h b)).drop 20,
    cleanupData_eq h siteConfig data pts hpts, by rw [hsort], ?_, ?_, ?_, ?_⟩
  · rw [List.take_append_drop]
    exact hperm.symm
  · rw [List.length_take, List.length_insertionSort]
  · exact (hsorted.sublist (List.take_sublist _ _)).imp (fun hab => by simpa using hab)
  · intro k hk e he
    have := List.Sorted.rel_of_mem_take_of_mem_drop hsorted hk he
    simpa using this

/-- Witness of `top_twenty_natures` on three named entries and a nameless one. -/
theorem top_twenty_natures_witness :
    DatesParse refHost exNature ∧
    (∀ e ∈ exNature.volume_by_nature, truthy (e.get "name") = true →
      ∃ q : ℚ, toNumber refHost (e.get "volume") = .fin q) ∧
    ∃ out vals rest, cleanupData refHost exConfig exNature = .ok out ∧
      out.volume_by_nature = [group "Call Volume" vals] ∧
      (exNature.volume_by_nature.filter (fun d => truthy (d.get "name"))).Perm (vals ++ rest) ∧
      vals.length
        = min 20 (exNature.volume_by_nature.filter (fun d => truthy (d.get "name"))).length ∧
      vals.Pairwise (fun a b => volumeOf refHost b ≤ volumeOf refHost a) ∧
      ∀ k ∈ vals, ∀ e ∈ rest, volumeOf refHost e ≤ volumeOf refHost k :=
  have hdates : DatesParse refHost exNature := by
    intro e he
    simp [exNature, emptyPayload] at he
  have hvol : ∀ e ∈ exNature.volume_by_nature, truthy (e.get "name") = true →
      ∃ q : ℚ, toNumber refHost (e.get "volume") = .fin q := by
    intro e he _
    simp only [exNature, List.mem_cons, List.mem_singleton, List.not_mem_nil, or_false] at he
    rcases he with rfl | rfl | rfl | rfl
    · exact ⟨4, rfl⟩
    · exact ⟨9, rfl⟩
    · exact ⟨7, rfl⟩
    · exact ⟨4, rfl⟩
  ⟨hdates, hvol, top_twenty_natures refHost exConfig exNature hdates hvol⟩

end CallVolume

/-! ## Day-of-week series -/


theorem natOfVal_numOfNat (i : Nat) : natOfVal (numOfNat i) = i := by
  simp [natOfVal, numOfNat]

theorem numOfNat_injective : Function.Injective numOfNat := by
  intro a b hab
  simpa [numOfNat] using hab

theorem labelled_get_id (h : Host) (table : List String) (d : Obj) :
    (CallVolume.labelled h table d).get "id" = d.get "id" := by
  simp [CallVolume.labelled, Obj.get, List.lookup]

/-- Entries with pairwise different ids: the volume found for an id is the volume
of any entry carrying it. -/
theorem volumeOfId_eq (raw : List Obj) (hnd : (raw.map (fun d => d.get "id")).Nodup)
    (d : Obj) (hd : d ∈ raw) (i : Nat) (hi : d.get "id" = numOfNat i) :
    volumeOfId raw i = d.get "volume" := by
  unfold volumeOfId
  cases hf : raw.find? (fun d => decide (d.get "id" = numOfNat i)) with
  | none =>
    have := List.find?_eq_none.mp hf d hd
    simp [hi] at this
  | some d2 =>
    have hd2 := List.mem_of_find?_eq_some hf
    have hp : d2.get "id" = numOfNat i := by
      simpa using List.find?_some hf
    have : d2 = d := List.inj_on_of_nodup_map hnd hd2 hd (hp.trans hi.symm)
    rw [this]

/-- A list of entries whose ids are exactly `0 .. n-1`, sorted by `_.sortBy` on the
id after the label mapper, is the table of the labelled points by id. -/
theorem sortBy_labelled (h : Host) (table : List String) (raw : List Obj) (n : Nat)
    (hids : (raw.map (fun d => d.get "id")).Perm ((List.range n).map numOfNat)) :
    sortBy h (fun d => d.get "id") (raw.map (CallVolume.labelled h table))
      = (List.range n).map (fun i =>
          [("id", numOfNat i), ("volume", volumeOfId raw i),
            ("name", tableAt table ((i : ℕ) : ℚ))]) := by
  have hnd : (raw.map (fun d => d.get "id")).Nodup :=
    hids.nodup_iff.mpr ((List.nodup_range n).map numOfNat_injective)
  have hmem : ∀ d ∈ raw, ∃ i : ℕ, i < n ∧ d.get "id" = numOfNat i := by
    intro d hd
    have := hids.mem_iff.mp (List.mem_map_of_mem (fun d => d.get "id") hd)
    obtain ⟨i, hi, he⟩ := List.mem_map.mp this
    exact ⟨i, List.mem_range.mp hi, he.symm⟩
  have hnat : ∀ d ∈ raw, ∀ i : ℕ, d.get "id" = numOfNat i →
      idNat (CallVolume.labelled h table d) = i := by
    intro d _ i hi
    rw [idNat, labelled_get_id, hi, natOfVal_numOfNat]
  have hkey : ∀ c ∈ raw.map (CallVolume.labelled h table),
      (fun d : Obj => d.get "id") c = .num (.fin ((fun c => ((idNat c : ℕ) : ℚ)) c)) := by
    intro c hc
    obtain ⟨d, hd, rfl⟩ := List.mem_map.mp hc
    obtain ⟨i, _, hi⟩ := hmem d hd
    show (CallVolume.labelled h table d).get "id"
      = .num (.fin ((idNat (CallVolume.labelled h table d) : ℕ) : ℚ))
    rw [hnat d hd i hi, labelled_get_id, hi]
    rfl
  rw [sortBy_num h _ _ _ hkey]
  apply insertionSort_eq_range_map
  · have h2 := hids.map natOfVal
    rw [List.map_map, List.map_map] at h2
    have h3 : (List.range n).map (natOfVal ∘ numOfNat) = List.range n := by
      conv_rhs => rw [← List.map_id (List.range n)]
      apply List.map_congr_left
      intro i _
      exact natOfVal_numOfNat i
    rw [h3] at h2
    rw [List.map_map]
    have h4 : raw.map (idNat ∘ CallVolume.labelled h table)
        = raw.map (natOfVal ∘ fun d => d.get "id") := by
      apply List.map_congr_left
      intro d _
      simp [idNat, labelled_get_id]
    rw [h4]
    exact h2
  · intro c hc
    obtain ⟨d, hd, rfl⟩ := List.mem_map.mp hc
    obtain ⟨i, _, hi⟩ := hmem d hd
    rw [hnat d hd i hi, volumeOfId_eq raw hnd d hd i hi]
    simp only [CallVolume.labelled, hi, tableGet, numOfNat]

namespace CallVolume

/-- Claim C3, amended (day-of-week series).  For a `volume_by_dow` list with
exactly one entry for each day id `0..6`, in any order, `cleanupData` yields
exactly one group, whose key is `"Volume By Day of Week"`, holding the seven points
named Mon .. Sun in that order (ids ascending), each with the volume of the input
entry carrying that id; a payload whose list is a permutation of this one gives
the same series. -/
theorem volume_by_dow_series (h : Host) (siteConfig : SiteConfig) (data : Payload)
    (hdates : DatesParse h data)
    (hids : (data.volume_by_dow.map (fun d => d.get "id")).Perm
      ((List.range 7).map numOfNat)) :
    ∃ out, cleanupData h siteConfig data = .ok out ∧
      out.volume_by_dow = [group "Volume By Day of Week"
        [labelPoint data.volume_by_dow 0 "Mon", labelPoint data.volume_by_dow 1 "Tue",
          labelPoint data.volume_by_dow 2 "Wed", labelPoint data.volume_by_dow 3 "Thu",
          labelPoint data.volume_by_dow 4 "Fri", labelPoint data.volume_by_dow 5 "Sat",
          labelPoint data.volume_by_dow 6 "Sun"]] ∧
      (∀ d ∈ data.volume_by_dow, ∀ i : ℕ, d.get "id" = numOfNat i →
        volumeOfId data.volume_by_dow i = d.get "volume") ∧
      ∀ data2, DatesParse h data2 → data2.volume_by_dow.Perm data.volume_by_dow →
        ∃ out2, cleanupData h siteConfig data2 = .ok out2 ∧
          out2.volume_by_dow = out.volume_by_dow := by
  obtain ⟨pts, hpts⟩ := cleanupData_dates h data hdates
  have hnd : (data.volume_by_dow.map (fun d => d.get "id")).Nodup :=
    hids.nodup_iff.mpr ((List.nodup_range 7).map numOfNat_injective)
  have hvol := volumeOfId_eq data.volume_by_dow hnd
  refine ⟨_, cleanupData_eq h siteConfig data pts hpts, ?_, hvol, ?_⟩
  · simp only [sortBy_labelled h _ data.volume_by_dow 7 hids]
    simp [List.range, List.range.loop, tableAt, labelPoint]
  · intro data2 hdates2 hperm
    obtain ⟨pts2, hpts2⟩ := cleanupData_dates h data2 hdates2
    have hids2 := (hperm.map (fun d => d.get "id")).trans hids
    have hnd2 : (data2.volume_by_dow.map (fun d => d.get "id")).Nodup :=
      hids2.nodup_iff.mpr ((List.nodup_range 7).map numOfNat_injective)
    refine ⟨_, cleanupData_eq h siteConfig data2 pts2 hpts2, ?_⟩
    simp only [sortBy_labelled h _ data.volume_by_dow 7 hids,
      sortBy_labelled h _ data2.volume_by_dow 7 hids2]
    congr 2
    apply List.map_congr_left
    intro i hi
    have : numOfNat i ∈ data2.volume_by_dow.map (fun d => d.get "id") :=
      hids2.mem_iff.mpr (List.mem_map.mpr ⟨i, hi, rfl⟩)
    obtain ⟨d, hd, hdi⟩ := List.mem_map.mp this
    rw [volumeOfId_eq _ hnd2 d hd i hdi, volumeOfId_eq _ hnd d (hperm.mem_iff.mp hd) i hdi]

end CallVolume

namespace CallVolume

/-- Witness of `volume_by_dow_series` on seven entries out of order. -/
theorem volume_by_dow_series_witness :
    DatesParse refHost exDow ∧
    (exDow.volume_by_dow.map (fun d => d.get "id")).Perm ((List.range 7).map numOfNat) ∧
    ∃ out, cleanupData refHost exConfig exDow = .ok out ∧
      out.volume_by_dow = [group "Volume By Day of Week"
        [labelPoint exDow.volume_by_dow 0 "Mon", labelPoint exDow.volume_by_dow 1 "Tue",
          labelPoint exDow.volume_by_dow 2 "Wed", labelPoint exDow.volume_by_dow 3 "Thu",
          labelPoint exDow.volume_by_dow 4 "Fri", labelPoint exDow.volume_by_dow 5 "Sat",
          labelPoint exDow.volume_by_dow 6 "Sun"]] ∧
      (∀ d ∈ exDow.volume_by_dow, ∀ i : ℕ, d.get "id" = numOfNat i →
        volumeOfId exDow.volume_by_dow i = d.get "volume") ∧
      ∀ data2, DatesParse refHost data2 → data2.volume_by_dow.Perm exDow.volume_by_dow →
        ∃ out2, cleanupData refHost exConfig data2 = .ok out2 ∧
          out2.volume_by_dow = out.volume_by_dow :=
  have hdates : DatesParse refHost exDow := by
    intro e he
    simp [exDow, emptyPayload] at he
  have hids : (exDow.volume_by_dow.map (fun d => d.get "id")).Perm
      ((List.range 7).map numOfNat) := by decide!
  ⟨hdates, hids, volume_by_dow_series refHost exConfig exDow hdates hids⟩

/-- Counterexample to claim C3 as stated: on a list with one entry per day id the
group of the series has the key `"Volume By Day of Week"`, so no output has the
form `[group "Call Volume" vals]`. -/
theorem volume_by_dow_key_counterexample :
    (exDow.volume_by_dow.map (fun d => d.get "id")).Perm ((List.range 7).map numOfNat) ∧
    (cleanupData refHost exConfig exDow).map (fun out => out.volume_by_dow)
      = .ok [group "Volume By Day of Week"
          [[("id", numOfNat 0), ("volume", .num (.fin 5)), ("name", .str "Mon")],
            [("id", numOfNat 1), ("volume", .num (.fin 10)), ("name", .str "Tue")],
            [("id", numOfNat 2), ("volume", .num (.fin 20)), ("name", .str "Wed")],
            [("id", numOfNat 3), ("volume", .num (.fin 30)), ("name", .str "Thu")],
            [("id", numOfNat 4), ("volume", .num (.fin 40)), ("name", .str "Fri")],
            [("id", numOfNat 5), ("volume", .num (.fin 50)), ("name", .str "Sat")],
            [("id", numOfNat 6), ("volume", .num (.fin 60)), ("name", .str "Sun")]]] ∧
    ¬ ∃ out vals, cleanupData refHost exConfig exDow = .ok out ∧
      out.volume_by_dow = [group "Call Volume" vals] := by
  have hrun : (cleanupData refHost exConfig exDow).map (fun out => out.volume_by_dow)
      = .ok [group "Volume By Day of Week"
          [[("id", numOfNat 0), ("volume", .num (.fin 5)), ("name", .str "Mon")],
            [("id", numOfNat 1), ("volume", .num (.fin 10)), ("name", .str "Tue")],
            [("id", numOfNat 2), ("volume", .num (.fin 20)), ("name", .str "Wed")],
            [("id", numOfNat 3), ("volume", .num (.fin 30)), ("name", .str "Thu")],
            [("id", numOfNat 4), ("volume", .num (.fin 40)), ("name", .str "Fri")],
            [("id", numOfNat 5), ("volume", .num (.fin 50)), ("name", .str "Sat")],
            [("id", numOfNat 6), ("volume", .num (.fin 60)), ("name", .str "Sun")]]] := by
    decide!
  refine ⟨by decide!, hrun, ?_⟩
  rintro ⟨out, vals, hout, hkey⟩
  rw [hout] at hrun
  simp only [Except.map] at hrun
  injection hrun with hrun
  rw [hkey] at hrun
  simp [group] at hrun

end CallVolume

/-! ## Calling cleanupData on its own result -/

theorem group_get_name (k : String) (vals : List Obj) : (group k vals).get "name" = .undefined := by
  simp [group, Obj.get, List.lookup]

theorem filter_group (k : String) (vals : List Obj) :
    [group k vals].filter (fun d => truthy (d.get "name")) = [] := by
  simp [List.filter, group_get_name, truthy]

theorem sortBy_nil {α : Type} (h : Host) (f : α → JSVal) : sortBy h f ([] : List α) = [] := rfl

theorem group_inj (k : String) (a b : List Obj) (hab : group k a = group k b) : a = b := by
  simp only [group, List.cons.injEq, Prod.mk.injEq, JSVal.arr.injEq, true_and, and_true] at hab
  exact List.map_injective_iff.mpr (fun x y hxy => by injection hxy) hab

theorem sortBy_eq_nil {α : Type} (h : Host) (f : α → JSVal) (l : List α) :
    sortBy h f l = [] ↔ l = [] := by
  constructor
  · intro hs
    have := sortBy_perm h f l
    rw [hs] at this
    exact this.symm.eq_nil
  · intro hl
    subst hl
    rfl

theorem filter_eq_nil_iff_falsy (l : List Obj) (k : String) :
    l.filter (fun d => truthy (d.get k)) = [] ↔ ∀ e ∈ l, truthy (e.get k) = false := by
  simp [List.filter_eq_nil_iff]

namespace CallVolume

theorem datePoint_group (h : Host) (k : String) (vals : List Obj) :
    datePoint h (group k vals)
      = match h.d3_time_parse "%Y-%m-%dT%H:%M:%S" .undefined with
        | .error e => .error e
        | .ok x => .ok [("x", x)] := by
  have hsel : selectKeys (group k vals) ["date", "volume"] = [] := by
    simp [selectKeys, group, Obj.has, List.lookup]
  have hren : renameKeys ([] : Obj) [("date", "x"), ("volume", "y")] = [] := by
    simp [renameKeys, omitKeys, Obj.get, List.lookup, existy]
  unfold datePoint
  simp only [hsel, hren]
  have hget : Obj.get ([] : Obj) "x" = .undefined := rfl
  rw [hget]
  cases h.d3_time_parse "%Y-%m-%dT%H:%M:%S" .undefined with
  | error e => rfl
  | ok x => simp [Obj.set, Obj.has, List.lookup]

/-- Claim C4, amended (no idempotence on the normalized object).  Let `cleanupData`
return `out` on a payload.  Called again on `out`, it throws whatever `indate.parse`
throws on `undefined` (the group of `volume_by_date` has no `date`); and when that
parse returns, the second call returns a payload whose `volume_by_nature_group`,
`volume_by_nature` and `volume_by_beat` groups have an empty `values` list, so each
of them equals the series of the first call only if the raw list had no entry with
a truthy name. -/
theorem renormalization_not_idempotent (h : Host) (siteConfig : SiteConfig) (data : Payload)
    (hdates : DatesParse h data) :
    ∃ out, cleanupData h siteConfig data = .ok out ∧
      (∀ e, h.d3_time_parse "%Y-%m-%dT%H:%M:%S" .undefined = .error e →
        cleanupData h siteConfig out = .error e) ∧
      (∀ x, h.d3_time_parse "%Y-%m-%dT%H:%M:%S" .undefined = .ok x →
        ∃ out2, cleanupData h siteConfig out = .ok out2 ∧
          out2.volume_by_nature_group = [group "Call Volume" []] ∧
          out2.volume_by_nature = [group "Call Volume" []] ∧
          out2.volume_by_beat = [group "Volume By Beat" []] ∧
          (out2.volume_by_nature_group = out.volume_by_nature_group ↔
            ∀ e ∈ data.volume_by_nature_group, truthy (e.get "name") = false) ∧
          (out2.volume_by_nature = out.volume_by_nature ↔
            ∀ e ∈ data.volume_by_nature, truthy (e.get "name") = false) ∧
          (out2.volume_by_beat = out.volume_by_beat ↔
            ∀ e ∈ data.volume_by_beat, truthy (e.get "name") = false)) := by
  obtain ⟨pts, hpts⟩ := cleanupData_dates h data hdates
  refine ⟨_, cleanupData_eq h siteConfig data pts hpts, ?_, ?_⟩
  · intro e he
    simp only [cleanupData, mapE, datePoint_group, he]
  · intro x hx
    have hm : mapE (datePoint h) [group "Call Volume" pts] = .ok [[("x", x)]] := by
      simp only [mapE, datePoint_group, hx]
    refine ⟨_, cleanupData_eq h siteConfig _ _ hm, ?_, ?_, ?_, ?_, ?_, ?_⟩
    · simp only [filter_group, sortBy_nil]
    · simp only [filter_group, sortBy_nil, List.take_nil]
    · simp only [filter_group, sortBy_nil]
    · simp only [filter_group, sortBy_nil, List.take_nil]
      rw [← filter_eq_nil_iff_falsy, ← sortBy_eq_nil h (fun d => d.get "name")]
      constructor
      · intro hEq
        have := group_inj _ _ _ (List.cons.inj hEq).1
        rw [← this]
      · intro hEq
        rw [hEq]
    · simp only [filter_group, sortBy_nil, List.take_nil]
      rw [← filter_eq_nil_iff_falsy,
        ← sortBy_eq_nil h (fun d => JSVal.num (toNumber h (d.get "volume")).neg)]
      constructor
      · intro hEq
        have := group_inj _ _ _ (List.cons.inj hEq).1
        have h2 : List.take 20 (sortBy h (fun d => JSVal.num (toNumber h (d.get "volume")).neg)
            (data.volume_by_nature.filter (fun d => truthy (d.get "name")))) = [] := by
          rw [← this]
        rcases List.take_eq_nil_iff.mp h2 with h3 | h3
        · cases h3
        · exact h3
      · intro hEq
        rw [hEq]
        rfl
    · simp only [filter_group, sortBy_nil, List.take_nil]
      rw [← filter_eq_nil_iff_falsy, ← sortBy_eq_nil h (fun d => d.get "volume")]
      constructor
      · intro hEq
        have := group_inj _ _ _ (List.cons.inj hEq).1
        rw [← this]
      · intro hEq
        rw [hEq]

/-- Witness of `renormalization_not_idempotent` on a payload with three named natures. -/
theorem renormalization_not_idempotent_witness :
    DatesParse lenientHost exNature ∧
    ∃ out, cleanupData lenientHost exConfig exNature = .ok out ∧
      (∀ e, lenientHost.d3_time_parse "%Y-%m-%dT%H:%M:%S" .undefined = .error e →
        cleanupData lenientHost exConfig out = .error e) ∧
      (∀ x, lenientHost.d3_time_parse "%Y-%m-%dT%H:%M:%S" .undefined = .ok x →
        ∃ out2, cleanupData lenientHost exConfig out = .ok out2 ∧
          out2.volume_by_nature_group = [group "Call Volume" []] ∧
          out2.volume_by_nature = [group "Call Volume" []] ∧
          out2.volume_by_beat = [group "Volume By Beat" []] ∧
          (out2.volume_by_nature_group = out.volume_by_nature_group ↔
            ∀ e ∈ exNature.volume_by_nature_group, truthy (e.get "name") = false) ∧
          (out2.volume_by_nature = out.volume_by_nature ↔
            ∀ e ∈ exNature.volume_by_nature, truthy (e.get "name") = false) ∧
          (out2.volume_by_beat = out.volume_by_beat ↔
            ∀ e ∈ exNature.volume_by_beat, truthy (e.get "name") = false)) :=
  have hdates : DatesParse lenientHost exNature := by
    intro e he
    simp [exNature, emptyPayload] at he
  ⟨hdates, renormalization_not_idempotent lenientHost exConfig exNature hdates⟩

/-- Counterexample to claim C4 as stated, on a payload with three named natures.
With the date parser that throws on a missing date, as the one of d3 does, the
first call returns and the second call on its result throws a `TypeError`; with a
parser that answers `null` instead, the second call returns a `volume_by_nature`
series without points where the first call returned three.  Either way the second
call does not reproduce the first. -/
theorem renormalization_counterexample :
    (cleanupData refHost exConfig exNature).map (fun out => out.volume_by_nature)
      = .ok [group "Call Volume" [named "THEFT" 7, named "ALARM" 4, named "NOISE" 4]] ∧
    (cleanupData refHost exConfig exNature).bind (cleanupData refHost exConfig)
      = .error .typeError ∧
    (cleanupData lenientHost exConfig exNature).map (fun out => out.volume_by_nature)
      = .ok [group "Call Volume" [named "THEFT" 7, named "ALARM" 4, named "NOISE" 4]] ∧
    ((cleanupData lenientHost exConfig exNature).bind (cleanupData lenientHost exConfig)).map
        (fun out => out.volume_by_nature)
      = .ok [group "Call Volume" []] ∧
    (cleanupData refHost exConfig exNature).bind (cleanupData refHost exConfig)
      ≠ cleanupData refHost exConfig exNature ∧
    (cleanupData lenientHost exConfig exNature).bind (cleanupData lenientHost exConfig)
      ≠ cleanupData lenientHost exConfig exNature := by
  refine ⟨by decide!, by decide!, by decide!, by decide!, by decide!, by decide!⟩

end CallVolume

/-! ## Rounding of the officer-allocation values -/

theorem d3_round_two (h : Host) (x : JSVal) : Rounded2 (d3_round h x 2) := by
  unfold d3_round
  simp only [ne_eq, OfNat.ofNat_ne_zero, not_false_eq_true, if_true]
  cases toNumber h x with
  | nan => exact Or.inl rfl
  | fin q =>
    right
    refine ⟨⌊q * 10 ^ 2 + 1 / 2⌋, ?_⟩
    simp only [JSNum.mul, Math_round, JSNum.div]
    norm_num

theorem mapE_mem {α β : Type} (f : α → Except JSErr β) :
    ∀ (l : List α) (bs : List β), mapE f l = .ok bs → ∀ b ∈ bs, ∃ a ∈ l, f a = .ok b
  | [], bs, hl, b, hb => by
    simp only [mapE] at hl
    injection hl with hl
    subst hl
    cases hb
  | a :: l, bs, hl, b, hb => by
    simp only [mapE] at hl
    cases hfa : f a with
    | error e => rw [hfa] at hl; cases hl
    | ok b0 =>
      rw [hfa] at hl
      cases hrest : mapE f l with
      | error e => rw [hrest] at hl; cases hl
      | ok bs0 =>
        rw [hrest] at hl
        injection hl with hl
        subst hl
        rcases List.mem_cons.mp hb with hb | hb
        · exact ⟨a, List.mem_cons_self _ _, by rw [hfa, hb]⟩
        · obtain ⟨a2, ha2, hf2⟩ := mapE_mem f l bs0 hrest b hb
          exact ⟨a2, List.mem_cons_of_mem _ ha2, hf2⟩

namespace OfficerAllocation

theorem allocationRow_oos (h : Host) (aot : JSVal) (k : String) (row : List Obj)
    (hrow : allocationRow h aot k = .ok row) :
    ∃ n, (row.getD 2 []).get "y" = .num n ∧ Rounded2 n := by
  unfold allocationRow at hrow
  split at hrow
  · cases hrow
  · rename_i oosRaw _
    split at hrow
    · cases hrow
    · split at hrow
      · cases hrow
      · split at hrow
        · cases hrow
        · split at hrow
          · cases hrow
          · split at hrow
            · cases hrow
            · injection hrow with hrow
              subst hrow
              exact ⟨d3_round h oosRaw 2, rfl, d3_round_two h oosRaw⟩

theorem allocation_eq (h : Host) (data : Payload) (rows : List (List Obj))
    (hrows : mapE (allocationRow h data.allocation_over_time)
      (sortBy h (fun k => JSVal.str k) (keys data.allocation_over_time)) = .ok rows) :
    cleanupData h data = .ok
      { allocation_over_time := .arr
          ([group "Citizen-Initiated Call" (column rows 0),
            group "Officer-Initiated Call" (column rows 1),
            group "Out of Service" (column rows 2),
            group "Directed Patrol" (column rows 3),
            group "Patrol" (column rows 4)].map JSVal.obj)
        on_duty_by_beat :=
          [group "Average On Duty"
            (sortBy h (fun d => d.get "beat")
              (data.on_duty_by_beat.filter (fun d => truthy (d.get "beat"))))]
        on_duty_by_district :=
          [group "Average On Duty"
            (sortBy h (fun d => d.get "district")
              (data.on_duty_by_district.filter (fun d => truthy (d.get "district"))))]
        other := data.other } := by
  simp only [cleanupData, hrows]

theorem cleanupData_rows (h : Host) (data : Payload) (hrows : RowsBuild h data) :
    ∃ rows, mapE (allocationRow h data.allocation_over_time)
      (sortBy h (fun k => JSVal.str k) (keys data.allocation_over_time)) = .ok rows := by
  apply mapE_of_forall
  intro k hk
  exact hrows k ((sortBy_perm h _ _).mem_iff.mp hk)

/-- Claim C5, amended (where the rounding happens).  When `cleanupData` builds its
rows, the `y` of every point of the "Out of Service" group is already rounded to
two decimals; the entries of the `on_duty_by_beat` and `on_duty_by_district` series
are input entries kept as received, and their `on_duty` is rounded to two decimals
by the `y` accessor of the charts, at render time. -/
theorem rounding_places (h : Host) (data : Payload) (hrows : RowsBuild h data) :
    ∃ out rows beats districts, cleanupData h data = .ok out ∧
      out.allocation_over_time = .arr
        ([group "Citizen-Initiated Call" (column rows 0),
          group "Officer-Initiated Call" (column rows 1),
          group "Out of Service" (column rows 2),
          group "Directed Patrol" (column rows 3),
          group "Patrol" (column rows 4)].map JSVal.obj) ∧
      (∀ pt ∈ column rows 2, ∃ n, pt.get "y" = .num n ∧ Rounded2 n) ∧
      out.on_duty_by_beat = [group "Average On Duty" beats] ∧
      (∀ d ∈ beats, d ∈ data.on_duty_by_beat ∧ Rounded2 (chartY h d)) ∧
      out.on_duty_by_district = [group "Average On Duty" districts] ∧
      (∀ d ∈ districts, d ∈ data.on_duty_by_district ∧ Rounded2 (chartY h d)) := by
  obtain ⟨rows, hr⟩ := cleanupData_rows h data hrows
  refine ⟨_, rows, _, _, allocation_eq h data rows hr, rfl, ?_, rfl, ?_, rfl, ?_⟩
  · intro pt hpt
    obtain ⟨row, hrow, rfl⟩ := List.mem_map.mp hpt
    obtain ⟨k, _, hk⟩ := mapE_mem _ _ _ hr row hrow
    exact allocationRow_oos h _ k row hk
  · intro d hd
    have := (sortBy_perm h _ _).mem_iff.mp hd
    exact ⟨(List.mem_filter.mp this).1, d3_round_two h _⟩
  · intro d hd
    have := (sortBy_perm h _ _).mem_iff.mp hd
    exact ⟨(List.mem_filter.mp this).1, d3_round_two h _⟩

/-- Witness of `rounding_places` on a payload with one time of day. -/
theorem rounding_places_witness :
    RowsBuild refHost exAlloc ∧
    ∃ out rows beats districts, cleanupData refHost exAlloc = .ok out ∧
      out.allocation_over_time = .arr
        ([group "Citizen-Initiated Call" (column rows 0),
          group "Officer-Initiated Call" (column rows 1),
          group "Out of Service" (column rows 2),
          group "Directed Patrol" (column rows 3),
          group "Patrol" (column rows 4)].map JSVal.obj) ∧
      (∀ pt ∈ column rows 2, ∃ n, pt.get "y" = .num n ∧ Rounded2 n) ∧
      out.on_duty_by_beat = [group "Average On Duty" beats] ∧
      (∀ d ∈ beats, d ∈ exAlloc.on_duty_by_beat ∧ Rounded2 (chartY refHost d)) ∧
      out.on_duty_by_district = [group "Average On Duty" districts] ∧
      (∀ d ∈ districts, d ∈ exAlloc.on_duty_by_district ∧ Rounded2 (chartY refHost d)) :=
  have hrows : RowsBuild refHost exAlloc := by
    intro k hk
    simp only [exAlloc, keys, List.map_cons, List.map_nil, List.mem_singleton] at hk
    subst hk
    exact ⟨[point (.date (-2208960000000)) (.num (.fin (4 / 10))),
      point (.date (-2208960000000)) (.num (.fin (3 / 10))),
      point (.date (-2208960000000)) (.num (.fin (124 / 100))),
      point (.date (-2208960000000)) (.num (.fin (2 / 10))),
      point (.date (-2208960000000)) (.num (.fin (1234 / 1000)))], by decide!⟩
  ⟨hrows, rounding_places refHost exAlloc hrows⟩

/-- Counterexample to claim C5 as stated: on a payload with a patrol average of
1.234 and an on-duty value of 2.345, `cleanupData` stores 1.234 as the `y` of the
"Patrol" point and 2.345 as `on_duty`, neither of which is rounded to two decimals
(only the out-of-service 1.236 became 1.24); the chart accessor turns 2.345 into
2.35 when it draws. -/
theorem rounding_counterexample :
    cleanupData refHost exAlloc = .ok
      { allocation_over_time := .arr
          ([group "Citizen-Initiated Call"
              [point (.date (-2208960000000)) (.num (.fin (4 / 10)))],
            group "Officer-Initiated Call"
              [point (.date (-2208960000000)) (.num (.fin (3 / 10)))],
            group "Out of Service"
              [point (.date (-2208960000000)) (.num (.fin (124 / 100)))],
            group "Directed Patrol"
              [point (.date (-2208960000000)) (.num (.fin (2 / 10)))],
            group "Patrol"
              [point (.date (-2208960000000)) (.num (.fin (1234 / 1000)))]].map JSVal.obj)
        on_duty_by_beat :=
          [group "Average On Duty"
            [[("beat", .str "B1"), ("on_duty", .num (.fin (2345 / 1000)))]]]
        on_duty_by_district :=
          [group "Average On Duty"
            [[("district", .str "D1"), ("on_duty", .num (.fin (5 / 2)))]]]
        other := [] } ∧
    ¬ Rounded2 (.fin (1234 / 1000)) ∧ ¬ Rounded2 (.fin (2345 / 1000)) ∧
    chartY refHost [("beat", .str "B1"), ("on_duty", .num (.fin (2345 / 1000)))]
      = .fin (235 / 100) := by
  refine ⟨by decide!, ?_, ?_, by decide!⟩
  · rintro (hn | ⟨k, hk⟩)
    · cases hn
    · injection hk with hk
      have h3 : (5 : ℚ) * k = 617 := by linarith
      have h4 : (5 : ℤ) * k = 617 := by exact_mod_cast h3
      omega
  · rintro (hn | ⟨k, hk⟩)
    · cases hn
    · injection hk with hk
      have h3 : (2 : ℚ) * k = 469 := by linarith
      have h4 : (2 : ℤ) * k = 469 := by exact_mod_cast h3
      omega

end OfficerAllocation

/-! ## Order of the time series -/

namespace CallVolume

theorem lookup_isSome_of_existy (e : Obj) (k : String) (hk : existy (e.get k) = true) :
    (e.lookup k).isSome = true := by
  unfold Obj.get at hk
  cases hl : e.lookup k with
  | none => rw [hl] at hk; simp [existy] at hk
  | some v => rfl

theorem datePoint_of (h : Host) (e : Obj) (x : JSVal)
    (hd : existy (e.get "date") = true) (hv : existy (e.get "volume") = true)
    (hp : h.d3_time_parse "%Y-%m-%dT%H:%M:%S" (e.get "date") = .ok x) :
    datePoint h e = .ok [("x", x), ("y", e.get "volume")] := by
  have h1 := lookup_isSome_of_existy e "date" hd
  have h2 := lookup_isSome_of_existy e "volume" hv
  have hsel : selectKeys e ["date", "volume"]
      = [("date", e.get "date"), ("volume", e.get "volume")] := by
    simp [selectKeys, Obj.has, h1, h2, Obj.set, List.lookup]
  have hren : renameKeys [("date", e.get "date"), ("volume", e.get "volume")]
      [("date", "x"), ("volume", "y")] = [("x", e.get "date"), ("y", e.get "volume")] := by
    simp [renameKeys, omitKeys, Obj.get, List.lookup, Obj.set, Obj.has]
    simp [Obj.get] at hd hv
    simp [hd, hv]
  unfold datePoint
  simp only [hsel, hren]
  have hx : Obj.get [("x", e.get "date"), ("y", e.get "volume")] "x" = e.get "date" := by
    simp [Obj.get, List.lookup]
  rw [hx, hp]
  simp [Obj.set, Obj.has, List.lookup]

/-- Claim C6, amended (order of the time series).  When every entry of
`volume_by_date` has a date and a volume and its date parses, the `volume_by_date`
series has one group `"Call Volume"` whose points follow the raw list entry by
entry: the point at index `i` has the parsed date of the raw entry at index `i` as
`x` and its volume as `y`.  The points are in the order of the raw list, whatever
their dates. -/
theorem volume_by_date_order (h : Host) (siteConfig : SiteConfig) (data : Payload)
    (hwf : ∀ e ∈ data.volume_by_date, existy (e.get "date") = true ∧
      existy (e.get "volume") = true ∧
      ∃ x, h.d3_time_parse "%Y-%m-%dT%H:%M:%S" (e.get "date") = .ok x) :
    ∃ out, cleanupData h siteConfig data = .ok out ∧
      out.volume_by_date = [group "Call Volume"
        (data.volume_by_date.map (fun e => [("x", parsedDate h e), ("y", e.get "volume")]))] := by
  have hpts : mapE (datePoint h) data.volume_by_date
      = .ok (data.volume_by_date.map
          (fun e => [("x", parsedDate h e), ("y", e.get "volume")])) := by
    apply mapE_ok
    intro e he
    obtain ⟨hd, hv, x, hx⟩ := hwf e he
    rw [datePoint_of h e x hd hv hx]
    simp [parsedDate, hx]
  exact ⟨_, cleanupData_eq h siteConfig data _ hpts, rfl⟩

/-- Witness of `volume_by_date_order` on two entries in descending order of date. -/
theorem volume_by_date_order_witness :
    (∀ e ∈ exDates.volume_by_date, existy (e.get "date") = true ∧
      existy (e.get "volume") = true ∧
      ∃ x, refHost.d3_time_parse "%Y-%m-%dT%H:%M:%S" (e.get "date") = .ok x) ∧
    ∃ out, cleanupData refHost exConfig exDates = .ok out ∧
      out.volume_by_date = [group "Call Volume"
        (exDates.volume_by_date.map
          (fun e => [("x", parsedDate refHost e), ("y", e.get "volume")]))] :=
  have hwf : ∀ e ∈ exDates.volume_by_date, existy (e.get "date") = true ∧
      existy (e.get "volume") = true ∧
      ∃ x, refHost.d3_time_parse "%Y-%m-%dT%H:%M:%S" (e.get "date") = .ok x := by
    intro e he
    simp only [exDates, emptyPayload, List.mem_cons, List.mem_singleton, List.not_mem_nil,
      or_false] at he
    rcases he with rfl | rfl
    · exact ⟨rfl, rfl, .date 1704153600000, rfl⟩
    · exact ⟨rfl, rfl, .date 1704067200000, rfl⟩
  ⟨hwf, volume_by_date_order refHost exConfig exDates hwf⟩

/-- Counterexample to claim C6 as stated: a raw list with 2 January before
1 January yields the points in that same order, the later timestamp first. -/
theorem volume_by_date_counterexample :
    (cleanupData refHost exConfig exDates).map (fun out => out.volume_by_date)
      = .ok [group "Call Volume"
          [[("x", .date 1704153600000), ("y", .num (.fin 3))],
            [("x", .date 1704067200000), ("y", .num (.fin 5))]]] ∧
    ¬ ((1704153600000 : Int) ≤ 1704067200000) := by
  refine ⟨by decide!, by decide⟩

end CallVolume

/-! ## Category filtering -/

theorem sortBy_str_ascending {α : Type} (h : Host) (f : α → JSVal) (l : List α)
    (hf : ∀ a ∈ l, ∃ s, f a = .str s) : Ascending h f (sortBy h f l) := by
  have hf2 : ∀ a ∈ l, f a = .str (strOf (f a)) := by
    intro a ha
    obtain ⟨s, hs⟩ := hf a ha
    rw [hs]
    rfl
  unfold Ascending
  rw [sortBy_str h f (fun a => strOf (f a)) l hf2]
  refine (insertionSort_str_sorted (fun a => strOf (f a)) l).imp_of_mem ?_
  intro a b ha hb hab
  rw [hf2 a ((List.perm_insertionSort _ _).mem_iff.mp ha),
    hf2 b ((List.perm_insertionSort _ _).mem_iff.mp hb)]
  simpa [jsLt, toPrimitive] using hab

theorem sortBy_num_ascending {α : Type} (h : Host) (f : α → JSVal) (l : List α)
    (hf : ∀ a ∈ l, ∃ q : ℚ, f a = .num (.fin q)) :
    Ascending h f (sortBy h f l) ∧ (sortBy h f l).Pairwise (fun a b => ratOf (f a) ≤ ratOf (f b)) := by
  have hf2 : ∀ a ∈ l, f a = .num (.fin (ratOf (f a))) := by
    intro a ha
    obtain ⟨s, hs⟩ := hf a ha
    rw [hs]
    rfl
  unfold Ascending
  rw [sortBy_num h f (fun a => ratOf (f a)) l hf2]
  refine ⟨?_, insertionSort_num_sorted (fun a => ratOf (f a)) l⟩
  refine (insertionSort_num_sorted (fun a => ratOf (f a)) l).imp_of_mem ?_
  intro a b ha hb hab
  rw [hf2 a ((List.perm_insertionSort _ _).mem_iff.mp ha),
    hf2 b ((List.perm_insertionSort _ _).mem_iff.mp hb)]
  simpa [jsLt, toPrimitive, primToNumber, JSNum.lt] using hab

/-- Claim C7 (category filtering).  In each of the four category series the single
group holds exactly the input entries whose label is truthy, each once (a
permutation of the filtered input list), and they are in ascending order of the
sort key of the series: `name` for `volume_by_nature_group`, `volume` for
`volume_by_beat`, `beat` for `on_duty_by_beat`, `district` for
`on_duty_by_district`.  The order is stated for well-typed keys: labels that are
strings when truthy, volumes that are numbers. -/
theorem category_filtering (h : Host) (siteConfig : CallVolume.SiteConfig)
    (p : CallVolume.Payload) (q : OfficerAllocation.Payload)
    (hdates : CallVolume.DatesParse h p) (hrows : OfficerAllocation.RowsBuild h q)
    (hgroup : ∀ e ∈ p.volume_by_nature_group, truthy (e.get "name") = true →
      ∃ s, e.get "name" = .str s)
    (hvolume : ∀ e ∈ p.volume_by_beat, truthy (e.get "name") = true →
      ∃ v : ℚ, e.get "volume" = .num (.fin v))
    (hbeat : ∀ e ∈ q.on_duty_by_beat, truthy (e.get "beat") = true →
      ∃ s, e.get "beat" = .str s)
    (hdistrict : ∀ e ∈ q.on_duty_by_district, truthy (e.get "district") = true →
      ∃ s, e.get "district" = .str s) :
    ∃ out out2 groups beats onBeat onDistrict,
      CallVolume.cleanupData h siteConfig p = .ok out ∧
      OfficerAllocation.cleanupData h q = .ok out2 ∧
      out.volume_by_nature_group = [group "Call Volume" groups] ∧
      groups.Perm (p.volume_by_nature_group.filter (fun d => truthy (d.get "name"))) ∧
      Ascending h (fun d => d.get "name") groups ∧
      out.volume_by_beat = [group "Volume By Beat" beats] ∧
      beats.Perm (p.volume_by_beat.filter (fun d => truthy (d.get "name"))) ∧
      Ascending h (fun d => d.get "volume") beats ∧
      beats.Pairwise (fun a b => ratOf (a.get "volume") ≤ ratOf (b.get "volume")) ∧
      out2.on_duty_by_beat = [group "Average On Duty" onBeat] ∧
      onBeat.Perm (q.on_duty_by_beat.filter (fun d => truthy (d.get "beat"))) ∧
      Ascending h (fun d => d.get "beat") onBeat ∧
      out2.on_duty_by_district = [group "Average On Duty" onDistrict] ∧
      onDistrict.Perm (q.on_duty_by_district.filter (fun d => truthy (d.get "district"))) ∧
      Ascending h (fun d => d.get "district") onDistrict := by
  obtain ⟨pts, hpts⟩ := CallVolume.cleanupData_dates h p hdates
  obtain ⟨rows, hr⟩ := OfficerAllocation.cleanupData_rows h q hrows
  refine ⟨_, _, _, _, _, _, CallVolume.cleanupData_eq h siteConfig p pts hpts,
    OfficerAllocation.allocation_eq h q rows hr, rfl, sortBy_perm h _ _, ?_, rfl,
    sortBy_perm h _ _, ?_, ?_, rfl, sortBy_perm h _ _, ?_, rfl, sortBy_perm h _ _, ?_⟩
  · exact sortBy_str_ascending h _ _ (fun a ha =>
      hgroup a (List.mem_filter.mp ha).1 (List.mem_filter.mp ha).2)
  · exact (sortBy_num_ascending h _ _ (fun a ha =>
      hvolume a (List.mem_filter.mp ha).1 (List.mem_filter.mp ha).2)).1
  · exact (sortBy_num_ascending h _ _ (fun a ha =>
      hvolume a (List.mem_filter.mp ha).1 (List.mem_filter.mp ha).2)).2
  · exact sortBy_str_ascending h _ _ (fun a ha =>
      hbeat a (List.mem_filter.mp ha).1 (List.mem_filter.mp ha).2)
  · exact sortBy_str_ascending h _ _ (fun a ha =>
      hdistrict a (List.mem_filter.mp ha).1 (List.mem_filter.mp ha).2)

/-- Witness of `category_filtering` on payloads with nameless entries. -/
theorem category_filtering_witness :
    CallVolume.DatesParse refHost CallVolume.exCategories ∧
    OfficerAllocation.RowsBuild refHost OfficerAllocation.exAlloc ∧
    ∃ out out2 groups beats onBeat onDistrict,
      CallVolume.cleanupData refHost CallVolume.exConfig CallVolume.exCategories = .ok out ∧
      OfficerAllocation.cleanupData refHost OfficerAllocation.exAlloc = .ok out2 ∧
      out.volume_by_nature_group = [group "Call Volume" groups] ∧
      groups.Perm (CallVolume.exCategories.volume_by_nature_group.filter
        (fun d => truthy (d.get "name"))) ∧
      Ascending refHost (fun d => d.get "name") groups ∧
      out.volume_by_beat = [group "Volume By Beat" beats] ∧
      beats.Perm (CallVolume.exCategories.volume_by_beat.filter
        (fun d => truthy (d.get "name"))) ∧
      Ascending refHost (fun d => d.get "volume") beats ∧
      beats.Pairwise (fun a b => ratOf (a.get "volume") ≤ ratOf (b.get "volume")) ∧
      out2.on_duty_by_beat = [group "Average On Duty" onBeat] ∧
      onBeat.Perm (OfficerAllocation.exAlloc.on_duty_by_beat.filter
        (fun d => truthy (d.get "beat"))) ∧
      Ascending refHost (fun d => d.get "beat") onBeat ∧
      out2.on_duty_by_district = [group "Average On Duty" onDistrict] ∧
      onDistrict.Perm (OfficerAllocation.exAlloc.on_duty_by_district.filter
        (fun d => truthy (d.get "district"))) ∧
      Ascending refHost (fun d => d.get "district") onDistrict :=
  have hdates : CallVolume.DatesParse refHost CallVolume.exCategories := by
    intro e he
    simp [CallVolume.exCategories, CallVolume.emptyPayload] at he
  have hrows : OfficerAllocation.RowsBuild refHost OfficerAllocation.exAlloc := by
    intro k hk
    simp only [OfficerAllocation.exAlloc, keys, List.map_cons, List.map_nil,
      List.mem_singleton] at hk
    subst hk
    exact ⟨[OfficerAllocation.point (.date (-2208960000000)) (.num (.fin (4 / 10))),
      OfficerAllocation.point (.date (-2208960000000)) (.num (.fin (3 / 10))),
      OfficerAllocation.point (.date (-2208960000000)) (.num (.fin (124 / 100))),
      OfficerAllocation.point (.date (-2208960000000)) (.num (.fin (2 / 10))),
      OfficerAllocation.point (.date (-2208960000000)) (.num (.fin (1234 / 1000)))],
      by decide!⟩
  have hgroup : ∀ e ∈ CallVolume.exCategories.volume_by_nature_group,
      truthy (e.get "name") = true → ∃ s, e.get "name" = .str s := by
    intro e he ht
    simp only [CallVolume.exCategories, List.mem_cons, List.mem_singleton, List.not_mem_nil,
      or_false] at he
    rcases he with rfl | rfl | rfl
    · exact ⟨_, rfl⟩
    · exact absurd ht (by decide)
    · exact ⟨_, rfl⟩
  have hvolume : ∀ e ∈ CallVolume.exCategories.volume_by_beat,
      truthy (e.get "name") = true → ∃ v : ℚ, e.get "volume" = .num (.fin v) := by
    intro e he ht
    simp only [CallVolume.exCategories, List.mem_cons, List.mem_singleton, List.not_mem_nil,
      or_false] at he
    rcases he with rfl | rfl | rfl | rfl
    · exact ⟨_, rfl⟩
    · exact absurd ht (by decide)
    · exact ⟨_, rfl⟩
    · exact ⟨_, rfl⟩
  have hbeat : ∀ e ∈ OfficerAllocation.exAlloc.on_duty_by_beat,
      truthy (e.get "beat") = true → ∃ s, e.get "beat" = .str s := by
    intro e he _
    simp only [OfficerAllocation.exAlloc, List.mem_singleton] at he
    subst he
    exact ⟨_, rfl⟩
  have hdistrict : ∀ e ∈ OfficerAllocation.exAlloc.on_duty_by_district,
      truthy (e.get "district") = true → ∃ s, e.get "district" = .str s := by
    intro e he _
    simp only [OfficerAllocation.exAlloc, List.mem_singleton] at he
    subst he
    exact ⟨_, rfl⟩
  ⟨hdates, hrows, category_filtering refHost CallVolume.exConfig CallVolume.exCategories
    OfficerAllocation.exAlloc hdates hrows hgroup hvolume hbeat hdistrict⟩

/-! ## Region map -/

theorem lookup_map_set (k k2 : String) (v : JSVal) :
    ∀ o : Obj, (o.map (fun p => if p.1 = k2 then (p.1, v) else p)).lookup k
      = if k = k2 then (o.lookup k).map (fun _ => v) else o.lookup k
  | [] => by simp [List.lookup]
  | (a, b) :: o => by
    have ih := lookup_map_set k k2 v o
    by_cases ha : a = k2
    · have hmap : ((a, b) :: o).map (fun p => if p.1 = k2 then (p.1, v) else p)
          = (a, v) :: o.map (fun p => if p.1 = k2 then (p.1, v) else p) := by
        simp [ha]
      rw [hmap, List.lookup_cons, List.lookup_cons, ih]
      by_cases hka : k = a
      · have hkk : k = k2 := hka.trans ha
        simp [hka, ha]
      · have hb : (k == a) = false := by simpa using hka
        simp [hb]
    · have hmap : ((a, b) :: o).map (fun p => if p.1 = k2 then (p.1, v) else p)
          = (a, b) :: o.map (fun p => if p.1 = k2 then (p.1, v) else p) := by
        simp [ha]
      rw [hmap, List.lookup_cons, List.lookup_cons, ih]
      by_cases hka : k = a
      · have hkk : ¬ k = k2 := fun e => ha (hka.symm.trans e)
        simp [hka, ha]
      · have hb : (k == a) = false := by simpa using hka
        simp [hb]

theorem lookup_append_single (k k2 : String) (v : JSVal) (o : Obj) :
    (o ++ [(k2, v)]).lookup k
      = match o.lookup k with
        | some w => some w
        | none => if k = k2 then some v else none := by
  induction o with
  | nil =>
    by_cases hk : k = k2
    · simp [List.lookup, hk]
    · have : (k == k2) = false := by simpa using hk
      simp [List.lookup, this, hk]
  | cons p o ih =>
    obtain ⟨a, b⟩ := p
    rw [List.cons_append, List.lookup_cons, List.lookup_cons]
    cases hka : k == a
    · exact ih
    · rfl

theorem lookup_set (o : Obj) (k k2 : String) (v : JSVal) :
    (o.set k2 v).lookup k
      = if k2 = "__proto__" then o.lookup k
        else if k = k2 then some v else o.lookup k := by
  unfold Obj.set
  by_cases hp : k2 = "__proto__"
  · simp [hp]
  · simp only [hp, if_false]
    by_cases hhas : o.has k2 = true
    · simp only [hhas, if_true, lookup_map_set]
      by_cases hk : k = k2
      · subst hk
        simp only [Obj.has] at hhas
        obtain ⟨w, hw⟩ := Option.isSome_iff_exists.mp hhas
        simp [hw]
      · simp [hk]
    · have hf : o.has k2 = false := by simpa using hhas
      simp only [hf, Bool.false_eq_true, if_false, lookup_append_single]
      by_cases hk : k = k2
      · subst hk
        have : o.lookup k = none := by
          simpa [Obj.has] using hf
        rw [this]
      · cases hl : o.lookup k with
        | none => simp [hk]
        | some w => simp [hk]

theorem keys_set_nodup (o : Obj) (k2 : String) (v : JSVal) (ho : (o.map Prod.fst).Nodup) :
    ((o.set k2 v).map Prod.fst).Nodup := by
  unfold Obj.set
  by_cases hp : k2 = "__proto__"
  · simpa [hp] using ho
  · simp only [hp, if_false]
    by_cases hhas : o.has k2 = true
    · simp only [hhas, if_true, List.map_map]
      have : (Prod.fst ∘ fun p : String × JSVal => if p.1 = k2 then (p.1, v) else p)
          = Prod.fst := by
        funext p
        by_cases hpk : p.1 = k2 <;> simp [hpk]
      rw [this]
      exact ho
    · have hf : o.has k2 = false := by simpa using hhas
      simp only [hf, Bool.false_eq_true, if_false, List.map_append, List.map_cons, List.map_nil]
      have hnone : o.lookup k2 = none := by
        simpa [Obj.has] using hf
      rw [List.lookup_eq_none_iff] at hnone
      rw [List.nodup_append]
      refine ⟨ho, List.nodup_singleton _, ?_⟩
      intro x hx hx2
      simp only [List.mem_singleton] at hx2
      subst hx2
      obtain ⟨p, hp1, hp2⟩ := List.mem_map.mp hx
      have := hnone p hp1
      simp [hp2] at this

namespace CallVolume

theorem nameKey_eq (h : Host) (v : JSVal) : nameKey h v = toPropertyKey h v := by
  cases v <;> rfl

theorem regionReduce_fold (h : Host) (k : String) (hk : k ≠ "__proto__") :
    ∀ (list : List Obj) (memo : Obj),
      (list.foldl (fun memo d => memo.set (toPropertyKey h (d.get "name")) (d.get "volume"))
        memo).lookup k
        = match lastVolume h list k with
          | some v => some v
          | none => memo.lookup k
  | [], memo => by simp [lastVolume]
  | d :: list, memo => by
    rw [List.foldl_cons, regionReduce_fold h k hk list]
    by_cases hd : toPropertyKey h (d.get "name") = k
    · have hcons : (d :: list).filter (fun d => decide (nameKey h (d.get "name") = k))
          = d :: list.filter (fun d => decide (nameKey h (d.get "name") = k)) := by
        simp [List.filter, nameKey_eq, hd]
      simp only [lastVolume, hcons]
      cases hl : list.filter (fun d => decide (nameKey h (d.get "name") = k)) with
      | nil =>
        simp only [List.getLast?_nil, Option.map_none', List.getLast?_singleton,
          Option.map_some', lookup_set, hd]
        simp [hk]
      | cons e es =>
        rw [List.getLast?_cons_cons]
        cases hlast : (e :: es).getLast? with
        | none => simp at hlast
        | some w => rfl
    · have hcons : (d :: list).filter (fun d => decide (nameKey h (d.get "name") = k))
          = list.filter (fun d => decide (nameKey h (d.get "name") = k)) := by
        simp [List.filter, nameKey_eq, hd]
      simp only [lastVolume, hcons]
      have hne : ¬ (k = toPropertyKey h (d.get "name")) := fun e => hd e.symm
      cases ((list.filter (fun d => decide (nameKey h (d.get "name") = k))).getLast?).map
          (fun d => d.get "volume") with
      | some v => rfl
      | none =>
        simp only [lookup_set, hne, if_false]
        split <;> rfl

theorem regionReduce_proto (h : Host) :
    ∀ (list : List Obj) (memo : Obj),
      (list.foldl (fun memo d => memo.set (toPropertyKey h (d.get "name")) (d.get "volume"))
        memo).lookup "__proto__" = memo.lookup "__proto__"
  | [], _ => rfl
  | d :: list, memo => by
    rw [List.foldl_cons, regionReduce_proto h list, lookup_set]
    by_cases hd : toPropertyKey h (d.get "name") = "__proto__"
    · simp [hd]
    · have : ¬ ("__proto__" = toPropertyKey h (d.get "name")) := fun e => hd e.symm
      simp [hd, this]

theorem regionReduce_nodup (h : Host) :
    ∀ (list : List Obj) (memo : Obj), (memo.map Prod.fst).Nodup →
      ((list.foldl (fun memo d => memo.set (toPropertyKey h (d.get "name")) (d.get "volume"))
        memo).map Prod.fst).Nodup
  | [], _, hm => hm
  | d :: list, memo, hm => by
    rw [List.foldl_cons]
    exact regionReduce_nodup h list _ (keys_set_nodup memo _ _ hm)

/-- The mapping built by the reducer: one binding per name, to the volume of the
last entry with that name, and none for `__proto__`. -/
theorem regionReduce_spec (h : Host) (list : List Obj) :
    RegionMapOf h list (regionReduce h list) := by
  refine ⟨regionReduce_nodup h list [] List.nodup_nil, ?_⟩
  intro k
  by_cases hk : k = "__proto__"
  · rw [if_pos hk, hk]
    exact regionReduce_proto h list []
  · rw [if_neg hk, regionReduce, regionReduce_fold h k hk list []]
    cases lastVolume h list k <;> rfl

/-- Claim C8, amended (region-map aggregation).  `cleanupData` builds `map_data`
from the raw `volume_by_beat` list when `use_beat` is truthy, whatever
`use_district` is, from the raw `volume_by_district` list when only `use_district`
is truthy, and leaves `map_data` as it was (absent) when neither is.  The mapping
has one key for each name of the list other than `__proto__` (a string name is its
own key, a `null` name has the key `null`, a missing one `undefined`; falsy names
are not filtered), binds it to the volume of the last entry with that name, and has
no other key; an entry called `__proto__` leaves no key. -/
theorem region_map_aggregation (h : Host) (siteConfig : SiteConfig) (data : Payload)
    (hdates : DatesParse h data) :
    ∃ out, cleanupData h siteConfig data = .ok out ∧
      (truthy siteConfig.use_beat = true →
        ∃ m, out.map_data = some m ∧ RegionMapOf h data.volume_by_beat m) ∧
      (truthy siteConfig.use_beat = false → truthy siteConfig.use_district = true →
        ∃ m, out.map_data = some m ∧ RegionMapOf h data.volume_by_district m) ∧
      (truthy siteConfig.use_beat = false → truthy siteConfig.use_district = false →
        out.map_data = data.map_data) := by
  obtain ⟨pts, hpts⟩ := cleanupData_dates h data hdates
  refine ⟨_, cleanupData_eq h siteConfig data pts hpts, ?_, ?_, ?_⟩
  · intro hb
    exact ⟨_, by simp [hb], regionReduce_spec h _⟩
  · intro hb hd
    exact ⟨_, by simp [hb, hd], regionReduce_spec h _⟩
  · intro hb hd
    simp [hb, hd]

/-- Witness of `region_map_aggregation` on a beat list with a repeated name and a
nameless entry, under each configuration: both switches on, district only, none. -/
theorem region_map_aggregation_witness :
    DatesParse refHost exRegions ∧
    (∃ out m, cleanupData refHost ⟨.bool true, .bool true⟩ exRegions = .ok out ∧
      out.map_data = some m ∧ m.lookup "B1" = some (.num (.fin 9)) ∧
      m.lookup "null" = some (.num (.fin 8)) ∧ m.lookup "B2" = some (.num (.fin 5)) ∧
      m.lookup "D1" = none) ∧
    (∃ out m, cleanupData refHost ⟨.bool false, .bool true⟩ exRegions = .ok out ∧
      out.map_data = some m ∧ m.lookup "D1" = some (.num (.fin 17)) ∧
      m.lookup "B1" = none) ∧
    (∃ out, cleanupData refHost ⟨.bool false, .bool false⟩ exRegions = .ok out ∧
      out.map_data = none) := by
  have hdates : DatesParse refHost exRegions := by
    intro e he
    simp [exRegions, emptyPayload] at he
  refine ⟨hdates, ?_, ?_, ?_⟩
  · obtain ⟨out, hout, hbeat, _, _⟩ :=
      region_map_aggregation refHost ⟨.bool true, .bool true⟩ exRegions hdates
    obtain ⟨m, hm, _, hk⟩ := hbeat rfl
    refine ⟨out, m, hout, hm, ?_, ?_, ?_, ?_⟩
    · rw [hk]; decide!
    · rw [hk]; decide!
    · rw [hk]; decide!
    · rw [hk]; decide!
  · obtain ⟨out, hout, _, hdistrict, _⟩ :=
      region_map_aggregation refHost ⟨.bool false, .bool true⟩ exRegions hdates
    obtain ⟨m, hm, _, hk⟩ := hdistrict rfl rfl
    refine ⟨out, m, hout, hm, ?_, ?_⟩
    · rw [hk]; decide!
    · rw [hk]; decide!
  · obtain ⟨out, hout, _, _, hnone⟩ :=
      region_map_aggregation refHost ⟨.bool false, .bool false⟩ exRegions hdates
    exact ⟨out, hout, hnone rfl rfl⟩

/-- Counterexample to claim C8 as stated: with `use_beat` on and a beat list whose
names are `__proto__` and `B1`, the map has the single key `B1`; the name
`__proto__` occurs in the list and is no key of the map. -/
theorem region_map_counterexample :
    truthy exConfig.use_beat = true ∧
    exProto.volume_by_beat.map (fun d => d.get "name") = [.str "__proto__", .str "B1"] ∧
    (cleanupData refHost exConfig exProto).map (fun out => out.map_data)
      = .ok (some [("B1", .num (.fin 5))]) ∧
    List.lookup "__proto__" ([("B1", .num (.fin 5))] : Obj) = none := by
  refine ⟨rfl, rfl, by decide!, rfl⟩

end CallVolume

/-! ## Heatmap outside the sparse range -/

namespace CallVolume

theorem heatCell_toObj (h : Host) (e : Obj) : (heatCell h e).toObj = cellOf h e := rfl

theorem gridKey_toObj (c : HeatCell) (d hr : ℚ) (hd : c.day = .fin d) (hh : c.hour = .fin hr) :
    gridKey c.toObj = d * 24 + hr ∧ heatKey c = .fin (d * 24 + hr) := by
  rcases c with ⟨day, hour, value⟩
  simp only at hd hh
  subst hd hh
  refine ⟨?_, by simp [heatKey, JSNum.mul, JSNum.add]⟩
  cases value <;> simp [gridKey, HeatCell.toObj, Obj.get, List.lookup, ratOf]

/-- Claim C9 (no synthesis outside the sparse range).  For a payload whose heatmap
list is empty or has at least 168 entries, `cleanupData` adds no cell: the output
heatmap holds exactly the input entries, each as the cell
`{day: +dow_received, hour: +hour_received, value: +volume}` (a permutation of
them, so as many cells as entries, none for an empty input, and no cell for a
position of the grid that no entry has), and the cells ascend in
`day * 24 + hour` when the days and hours are numbers. -/
theorem heatmap_no_synthesis (h : Host) (siteConfig : SiteConfig) (data : Payload)
    (hdates : DatesParse h data)
    (hlen : data.heatmap = [] ∨ 168 ≤ data.heatmap.length) :
    ∃ out, cleanupData h siteConfig data = .ok out ∧
      out.heatmap.Perm (data.heatmap.map (cellOf h)) ∧
      out.heatmap.length = data.heatmap.length ∧
      (data.heatmap = [] → out.heatmap = []) ∧
      ((∀ e ∈ data.heatmap, ∃ d hr : ℚ, toNumber h (e.get "dow_received") = .fin d ∧
          toNumber h (e.get "hour_received") = .fin hr) →
        out.heatmap.Pairwise (fun a b => gridKey a ≤ gridKey b)) := by
  obtain ⟨pts, hpts⟩ := cleanupData_dates h data hdates
  have hcond : ¬ (0 < (data.heatmap.map (heatCell h)).length ∧
      (data.heatmap.map (heatCell h)).length < 24 * 7) := by
    rw [List.length_map]
    rcases hlen with hl | hl
    · rw [hl]; simp
    · omega
  have hperm := sortBy_perm h (fun d => JSVal.num (heatKey d)) (data.heatmap.map (heatCell h))
  have hobj : (data.heatmap.map (heatCell h)).map HeatCell.toObj
      = data.heatmap.map (cellOf h) := by
    rw [List.map_map]
    exact List.map_congr_left (fun e _ => heatCell_toObj h e)
  have hout : ((sortBy h (fun d => JSVal.num (heatKey d))
      (data.heatmap.map (heatCell h))).map HeatCell.toObj).Perm
      (data.heatmap.map (cellOf h)) := by
    rw [← hobj]
    exact hperm.map _
  refine ⟨_, cleanupData_eq h siteConfig data pts hpts, ?_, ?_, ?_, ?_⟩
  · simp only [hcond, if_false]
    exact hout
  · simp only [hcond, if_false]
    rw [hout.length_eq, List.length_map]
  · intro hl
    simp only [hcond, if_false]
    rw [hl]
    rfl
  · intro hnum
    simp only [hcond, if_false]
    have hcell : ∀ c ∈ data.heatmap.map (heatCell h),
        ∃ d hr : ℚ, c.day = .fin d ∧ c.hour = .fin hr := by
      intro c hc
      obtain ⟨e, he, rfl⟩ := List.mem_map.mp hc
      exact hnum e he
    have hkey : ∀ c ∈ data.heatmap.map (heatCell h),
        (fun d => JSVal.num (heatKey d)) c = .num (.fin ((fun c => gridKey c.toObj) c)) := by
      intro c hc
      obtain ⟨d, hr, hd, hh⟩ := hcell c hc
      obtain ⟨k1, k2⟩ := gridKey_toObj c d hr hd hh
      show JSVal.num (heatKey c) = .num (.fin (gridKey c.toObj))
      rw [k1, k2]
    rw [sortBy_num h _ _ _ hkey, List.pairwise_map]
    exact insertionSort_num_sorted _ _

/-- Witness of `heatmap_no_synthesis` on 168 entries that cover two positions of
the grid: the 168 cells come back sorted and no cell is added for the other 166
positions. -/
theorem heatmap_no_synthesis_witness :
    DatesParse refHost exDense ∧
    (exDense.heatmap = [] ∨ 168 ≤ exDense.heatmap.length) ∧
    (cleanupData refHost exConfig exDense).map (fun out => out.heatmap)
      = .ok (List.replicate 68 (heatPoint 0 0 4) ++ List.replicate 100 (heatPoint 2 5 1)) ∧
    ∃ out, cleanupData refHost exConfig exDense = .ok out ∧
      out.heatmap.Perm (exDense.heatmap.map (cellOf refHost)) ∧
      out.heatmap.length = exDense.heatmap.length ∧
      (exDense.heatmap = [] → out.heatmap = []) ∧
      ((∀ e ∈ exDense.heatmap, ∃ d hr : ℚ,
          toNumber refHost (e.get "dow_received") = .fin d ∧
          toNumber refHost (e.get "hour_received") = .fin hr) →
        out.heatmap.Pairwise (fun a b => gridKey a ≤ gridKey b)) :=
  have hdates : DatesParse refHost exDense := by
    intro e he
    simp [exDense, emptyPayload] at he
  have hlen : exDense.heatmap = [] ∨ 168 ≤ exDense.heatmap.length :=
    Or.inr (by
      show 168 ≤ (List.replicate 100 (heatEntry 2 5 1)
        ++ List.replicate 68 (heatEntry 0 0 4)).length
      rw [List.length_append, List.length_replicate, List.length_replicate])
  ⟨hdates, hlen, by decide!, heatmap_no_synthesis refHost exConfig exDense hdates hlen⟩

end CallVolume

/-! ## Fetch-response handlers -/

/-- Claim C10, amended (fetch-response handling).  For every store and every
response `(error, newData)`, for the handler of either dashboard: if `error` is
truthy the handler raises `error` and leaves every slot as it was; if `error` is
falsy it sets `loading` and `initialload` to `false` and runs `cleanupData`: when
that returns, `data` becomes its result, nothing is raised and the other slots are
unchanged; when that throws, the handler raises the same fault, with the two flags
already `false` and `data` as it was.  So the handler raises exactly when `error`
is truthy or `cleanupData(newData)` throws. -/
theorem fetch_response_handling (h : Host) (siteConfig : CallVolume.SiteConfig)
    (self : CallVolume.Store) (self2 : OfficerAllocation.Store) (error : JSVal)
    (newData : CallVolume.Payload) (newData2 : OfficerAllocation.Payload) :
    ((truthy error = true →
        CallVolume.filterUpdated_callback h siteConfig self error newData
          = (self, .error (.thrown error))) ∧
      (truthy error = false → ∀ cleaned,
        CallVolume.cleanupData h siteConfig newData = .ok cleaned →
        CallVolume.filterUpdated_callback h siteConfig self error newData
          = ({ loading := .bool false, initialload := .bool false, data := cleaned,
               rest := self.rest }, .ok ())) ∧
      (truthy error = false → ∀ e,
        CallVolume.cleanupData h siteConfig newData = .error e →
        CallVolume.filterUpdated_callback h siteConfig self error newData
          = ({ loading := .bool false, initialload := .bool false, data := self.data,
               rest := self.rest }, .error e)) ∧
      ((∃ e, (CallVolume.filterUpdated_callback h siteConfig self error newData).2 = .error e)
        ↔ (truthy error = true ∨
          ∃ e, CallVolume.cleanupData h siteConfig newData = .error e))) ∧
    ((truthy error = true →
        OfficerAllocation.filterUpdated_callback h self2 error newData2
          = (self2, .error (.thrown error))) ∧
      (truthy error = false → ∀ cleaned,
        OfficerAllocation.cleanupData h newData2 = .ok cleaned →
        OfficerAllocation.filterUpdated_callback h self2 error newData2
          = ({ loading := .bool false, initialload := .bool false, data := cleaned,
               rest := self2.rest }, .ok ())) ∧
      (truthy error = false → ∀ e,
        OfficerAllocation.cleanupData h newData2 = .error e →
        OfficerAllocation.filterUpdated_callback h self2 error newData2
          = ({ loading := .bool false, initialload := .bool false, data := self2.data,
               rest := self2.rest }, .error e)) ∧
      ((∃ e, (OfficerAllocation.filterUpdated_callback h self2 error newData2).2 = .error e)
        ↔ (truthy error = true ∨
          ∃ e, OfficerAllocation.cleanupData h newData2 = .error e))) := by
  cases ht : truthy error
  · cases hc : CallVolume.cleanupData h siteConfig newData <;>
      cases hc2 : OfficerAllocation.cleanupData h newData2 <;>
      simp [CallVolume.filterUpdated_callback, OfficerAllocation.filterUpdated_callback, ht,
        hc, hc2]
  · simp [CallVolume.filterUpdated_callback, OfficerAllocation.filterUpdated_callback, ht]

/-- Witness of `fetch_response_handling`: a successful response to either
dashboard, and an error response. -/
theorem fetch_response_handling_witness :
    CallVolume.filterUpdated_callback refHost CallVolume.exConfig CallVolume.exStore
        .null CallVolume.exNature
      = ({ loading := .bool false, initialload := .bool false,
           data := CallVolume.exCleaned, rest := CallVolume.exStore.rest }, .ok ()) ∧
    OfficerAllocation.filterUpdated_callback refHost OfficerAllocation.exStore
        .null OfficerAllocation.exAlloc
      = ({ loading := .bool false, initialload := .bool false,
           data := OfficerAllocation.exCleaned,
           rest := OfficerAllocation.exStore.rest }, .ok ()) ∧
    CallVolume.filterUpdated_callback refHost CallVolume.exConfig CallVolume.exStore
        (.str "timeout") CallVolume.exNature
      = (CallVolume.exStore, .error (.thrown (.str "timeout"))) ∧
    OfficerAllocation.filterUpdated_callback refHost OfficerAllocation.exStore
        (.str "timeout") OfficerAllocation.exAlloc
      = (OfficerAllocation.exStore, .error (.thrown (.str "timeout"))) :=
  have hnorm : CallVolume.cleanupData refHost CallVolume.exConfig CallVolume.exNature
      = .ok CallVolume.exCleaned := by decide!
  have hnorm2 : OfficerAllocation.cleanupData refHost OfficerAllocation.exAlloc
      = .ok OfficerAllocation.exCleaned := by decide!
  have hok := fetch_response_handling refHost CallVolume.exConfig CallVolume.exStore
    OfficerAllocation.exStore .null CallVolume.exNature OfficerAllocation.exAlloc
  have herr := fetch_response_handling refHost CallVolume.exConfig CallVolume.exStore
    OfficerAllocation.exStore (.str "timeout") CallVolume.exNature OfficerAllocation.exAlloc
  ⟨hok.1.2.1 rfl _ hnorm, hok.2.2.1 rfl _ hnorm2, herr.1.1 rfl, herr.2.1 rfl⟩

/-- Counterexample to claim C10 as stated: with a falsy `error`, the call-volume
handler given a payload whose `volume_by_date` entry has no date, and the
officer-allocation handler given a payload whose time of day has no bucket, both
raise a `TypeError`, and both have set `loading` and `initialload` to `false`
before they raise. -/
theorem fetch_response_counterexample :
    truthy .null = false ∧
    (CallVolume.filterUpdated_callback refHost CallVolume.exConfig CallVolume.exStore
      .null CallVolume.exDateless).2 = .error .typeError ∧
    (CallVolume.filterUpdated_callback refHost CallVolume.exConfig CallVolume.exStore
      .null CallVolume.exDateless).1.loading = .bool false ∧
    (CallVolume.filterUpdated_callback refHost CallVolume.exConfig CallVolume.exStore
      .null CallVolume.exDateless).1.initialload = .bool false ∧
    CallVolume.exStore.loading = .bool true ∧
    (OfficerAllocation.filterUpdated_callback refHost OfficerAllocation.exStore
      .null OfficerAllocation.exBucketless).2 = .error .typeError ∧
    (OfficerAllocation.filterUpdated_callback refHost OfficerAllocation.exStore
      .null OfficerAllocation.exBucketless).1.loading = .bool false ∧
    (OfficerAllocation.filterUpdated_callback refHost OfficerAllocation.exStore
      .null OfficerAllocation.exBucketless).1.initialload = .bool false ∧
    OfficerAllocation.exStore.loading = .bool true := by
  refine ⟨rfl, by decide!, by decide!, by decide!, rfl, by decide!, by decide!, by decide!,
    rfl⟩

/-! ## Label substitution -/

theorem tableGet_num (h : Host) (table : List String) (q : ℚ) :
    tableGet h table (.num (.fin q)) = labelFor table (.num (.fin q)) := by
  have hiff : ∀ j : ℕ, (JSVal.num (.fin q) = numOfNat j) ↔ q = ((j : ℕ) : ℚ) := by
    intro j
    simp [numOfNat]
  show tableAt table q = _
  unfold tableAt labelFor
  by_cases hq : q.den = 1 ∧ 0 ≤ q.num
  · have hqi : q = ((q.num.toNat : ℕ) : ℚ) := by
      have h1 : ((q.num.toNat : ℕ) : ℤ) = q.num := Int.toNat_of_nonneg hq.2
      have h2 : q = (q.num : ℚ) := by
        conv_lhs => rw [← Rat.num_div_den q, hq.1]
        simp
      rw [h2]
      exact_mod_cast h1.symm
    rw [if_pos hq]
    cases hfind : (List.range table.length).find? (fun i => decide (JSVal.num (.fin q) = numOfNat i)) with
    | none =>
      have hge : table.length ≤ q.num.toNat := by
        by_contra hlt
        have := List.find?_eq_none.mp hfind q.num.toNat (List.mem_range.mpr (by omega))
        simp only [decide_eq_true_eq] at this
        exact this ((hiff _).mpr hqi)
      have : table.get? q.num.toNat = none := List.get?_eq_none.mpr hge
      rw [this]
    | some j =>
      have hj := List.mem_range.mp (List.mem_of_find?_eq_some hfind)
      have hp : q = ((j : ℕ) : ℚ) := by
        have := List.find?_some hfind
        simp only [decide_eq_true_eq] at this
        exact (hiff j).mp this
      have hji : q.num.toNat = j := by
        rw [hp]; simp
      rw [hji]
      have : table.get? j = some (table.getD j "") := by
        rw [List.get?_eq_get hj]
        simp [List.getElem?_eq_getElem hj]
      rw [this]
  · rw [if_neg hq]
    cases hfind : (List.range table.length).find? (fun i => decide (JSVal.num (.fin q) = numOfNat i)) with
    | none => rfl
    | some j =>
      exfalso
      have hp : q = ((j : ℕ) : ℚ) := by
        have := List.find?_some hfind
        simp only [decide_eq_true_eq] at this
        exact (hiff j).mp this
      apply hq
      rw [hp]
      simp

theorem labelled_eq_expected (h : Host) (table : List String) (e : Obj)
    (hid : ∃ q : ℚ, e.get "id" = .num (.fin q)) :
    CallVolume.labelled h table e = expectedPoint table e := by
  obtain ⟨q, hq⟩ := hid
  simp only [CallVolume.labelled, expectedPoint, hq, tableGet_num]

/-- The series built by the mapper and `_.sortBy` on the id, for numeric ids. -/
theorem labelled_series (h : Host) (table : List String) (raw : List Obj)
    (hid : ∀ e ∈ raw, ∃ q : ℚ, e.get "id" = .num (.fin q)) :
    LabelledSeries h table raw
      (sortBy h (fun d => d.get "id") (raw.map (CallVolume.labelled h table))) := by
  have hf : ∀ a ∈ raw.map (CallVolume.labelled h table),
      ∃ q : ℚ, (fun d : Obj => d.get "id") a = .num (.fin q) := by
    intro a ha
    obtain ⟨e, he, rfl⟩ := List.mem_map.mp ha
    obtain ⟨q, hq⟩ := hid e he
    exact ⟨q, by show (CallVolume.labelled h table e).get "id" = _; rw [labelled_get_id, hq]⟩
  have hmap : raw.map (CallVolume.labelled h table) = raw.map (expectedPoint table) :=
    List.map_congr_left (fun e he => labelled_eq_expected h table e (hid e he))
  refine ⟨?_, (sortBy_num_ascending h _ _ hf).2, (sortBy_num_ascending h _ _ hf).1⟩
  rw [← hmap]
  exact sortBy_perm h _ _

namespace CallVolume

/-- Claim C11, amended (label substitution).  When the ids of the three id-labelled
lists are numbers, `cleanupData` returns, and each of `volume_by_source`, `volume_by_dow` and
`volume_by_shift` is one group holding one point `{id, volume, name}` per input
entry, none dropped, in ascending order of id; `name` is the entry of the table
(`Officer, Citizen`; `Mon .. Sun`; `Shift 1, Shift 2`) at index `id` when `id` is an
index of the table and `undefined` otherwise, in which case the point is emitted
all the same and nothing is raised. -/
theorem label_substitution (h : Host) (siteConfig : SiteConfig) (data : Payload)
    (hdates : DatesParse h data)
    (hsource : ∀ e ∈ data.volume_by_source, ∃ q : ℚ, e.get "id" = .num (.fin q))
    (hdow : ∀ e ∈ data.volume_by_dow, ∃ q : ℚ, e.get "id" = .num (.fin q))
    (hshift : ∀ e ∈ data.volume_by_shift, ∃ q : ℚ, e.get "id" = .num (.fin q)) :
    ∃ out sources dows shifts, cleanupData h siteConfig data = .ok out ∧
      out.volume_by_source = [group "Volume by Source" sources] ∧
      LabelledSeries h ["Officer", "Citizen"] data.volume_by_source sources ∧
      out.volume_by_dow = [group "Volume By Day of Week" dows] ∧
      LabelledSeries h ["Mon", "Tue", "Wed", "Thu", "Fri", "Sat", "Sun"]
        data.volume_by_dow dows ∧
      out.volume_by_shift = [group "Volume By Shift" shifts] ∧
      LabelledSeries h ["Shift 1", "Shift 2"] data.volume_by_shift shifts := by
  obtain ⟨pts, hpts⟩ := cleanupData_dates h data hdates
  exact ⟨_, _, _, _, cleanupData_eq h siteConfig data pts hpts, rfl,
    labelled_series h _ _ hsource, rfl, labelled_series h _ _ hdow, rfl,
    labelled_series h _ _ hshift⟩

/-- Witness of `label_substitution` on lists with ids 5, 9, -1 and 3/2. -/
theorem label_substitution_witness :
    DatesParse refHost exLabels ∧
    (∀ e ∈ exLabels.volume_by_source, ∃ q : ℚ, e.get "id" = .num (.fin q)) ∧
    (∀ e ∈ exLabels.volume_by_dow, ∃ q : ℚ, e.get "id" = .num (.fin q)) ∧
    (∀ e ∈ exLabels.volume_by_shift, ∃ q : ℚ, e.get "id" = .num (.fin q)) ∧
    ∃ out sources dows shifts, cleanupData refHost exConfig exLabels = .ok out ∧
      out.volume_by_source = [group "Volume by Source" sources] ∧
      LabelledSeries refHost ["Officer", "Citizen"] exLabels.volume_by_source sources ∧
      out.volume_by_dow = [group "Volume By Day of Week" dows] ∧
      LabelledSeries refHost ["Mon", "Tue", "Wed", "Thu", "Fri", "Sat", "Sun"]
        exLabels.volume_by_dow dows ∧
      out.volume_by_shift = [group "Volume By Shift" shifts] ∧
      LabelledSeries refHost ["Shift 1", "Shift 2"] exLabels.volume_by_shift shifts :=
  have hdates : DatesParse refHost exLabels := by
    intro e he
    simp [exLabels, emptyPayload] at he
  have hsource : ∀ e ∈ exLabels.volume_by_source, ∃ q : ℚ, e.get "id" = .num (.fin q) := by
    intro e he
    simp only [exLabels, List.mem_cons, List.mem_singleton, List.not_mem_nil, or_false] at he
    rcases he with rfl | rfl | rfl <;> exact ⟨_, rfl⟩
  have hdow : ∀ e ∈ exLabels.volume_by_dow, ∃ q : ℚ, e.get "id" = .num (.fin q) := by
    intro e he
    simp only [exLabels, List.mem_cons, List.mem_singleton, List.not_mem_nil, or_false] at he
    rcases he with rfl | rfl | rfl <;> exact ⟨_, rfl⟩
  have hshift : ∀ e ∈ exLabels.volume_by_shift, ∃ q : ℚ, e.get "id" = .num (.fin q) := by
    intro e he
    simp only [exLabels, List.mem_cons, List.mem_singleton, List.not_mem_nil, or_false] at he
    rcases he with rfl | rfl <;> exact ⟨_, rfl⟩
  ⟨hdates, hsource, hdow, hshift,
    label_substitution refHost exConfig exLabels hdates hsource hdow hshift⟩

/-- Counterexample to claim C11 as stated: a source entry whose id is the string
`length`, which is no index of the table `[Officer, Citizen]`, gets the number 2
as its name, the length of the table, and not `undefined`. -/
theorem label_substitution_counterexample :
    (List.range 2).find? (fun i => decide (JSVal.str "length" = numOfNat i)) = none ∧
    (cleanupData refHost exConfig exLength).map (fun out => out.volume_by_source)
      = .ok [group "Volume by Source"
          [[("id", .str "length"), ("volume", .num (.fin 4)), ("name", .num (.fin 2))]]] ∧
    JSVal.num (.fin 2) ≠ .undefined := by
  refine ⟨by decide!, by decide!, by decide⟩

end CallVolume

/-! ## Paging of the call list -/

namespace CallList

theorem maxPage_eq (h : Host) (s : State) (c pp : ℕ)
    (hc : toNumber h (s.calls.get "count") = .fin ((c : ℕ) : ℚ))
    (hpp : s.perPage = .fin ((pp : ℕ) : ℚ)) (h1 : 1 ≤ pp) :
    maxPage h s = .fin ((⌈((c : ℕ) : ℚ) / ((pp : ℕ) : ℚ)⌉ : ℤ) : ℚ) := by
  have : ((pp : ℕ) : ℚ) ≠ 0 := by
    have : (0 : ℚ) < pp := by exact_mod_cast h1
    exact ne_of_gt this
  simp [maxPage, hc, hpp, JSNum.div, Math_ceil, this]

/-- Claim C12 (paging invariant).  In a state with whole `calls.count >= 0`,
`perPage >= 1` and `1 <= page <= maxPage`, where `maxPage` is the ceiling of
`calls.count / perPage`: `nextPage` sets `page` to `page + 1` exactly when
`page < maxPage` and otherwise changes nothing, `prevPage` sets `page` to
`page - 1` exactly when `page > 1` and otherwise changes nothing, neither changes
`perPage` or `calls`, and after either one `1 <= page <= maxPage` still holds. -/
theorem paging_invariant (h : Host) (s : State) (c pp pg : ℕ)
    (hc : toNumber h (s.calls.get "count") = .fin ((c : ℕ) : ℚ))
    (hpp : s.perPage = .fin ((pp : ℕ) : ℚ)) (hpg : s.page = .fin ((pg : ℕ) : ℚ))
    (h1 : 1 ≤ pp) (hlo : 1 ≤ pg) (hhi : (pg : ℤ) ≤ ⌈((c : ℕ) : ℚ) / ((pp : ℕ) : ℚ)⌉) :
    maxPage h s = .fin ((⌈((c : ℕ) : ℚ) / ((pp : ℕ) : ℚ)⌉ : ℤ) : ℚ) ∧
    (nextPage h s).perPage = s.perPage ∧ (nextPage h s).calls = s.calls ∧
    (prevPage s).perPage = s.perPage ∧ (prevPage s).calls = s.calls ∧
    ((pg : ℤ) < ⌈((c : ℕ) : ℚ) / ((pp : ℕ) : ℚ)⌉ →
      (nextPage h s).page = .fin (((pg + 1 : ℕ)) : ℚ)) ∧
    (¬ (pg : ℤ) < ⌈((c : ℕ) : ℚ) / ((pp : ℕ) : ℚ)⌉ → nextPage h s = s) ∧
    (1 < pg → (prevPage s).page = .fin (((pg - 1 : ℕ)) : ℚ)) ∧
    (¬ 1 < pg → prevPage s = s) ∧
    (∃ pg2 : ℕ, (nextPage h s).page = .fin ((pg2 : ℕ) : ℚ) ∧ 1 ≤ pg2 ∧
      (pg2 : ℤ) ≤ ⌈((c : ℕ) : ℚ) / ((pp : ℕ) : ℚ)⌉) ∧
    (∃ pg3 : ℕ, (prevPage s).page = .fin ((pg3 : ℕ) : ℚ) ∧ 1 ≤ pg3 ∧
      (pg3 : ℤ) ≤ ⌈((c : ℕ) : ℚ) / ((pp : ℕ) : ℚ)⌉) := by
  have hmax := maxPage_eq h s c pp hc hpp h1
  have hlt : s.page.lt (maxPage h s)
      = decide ((pg : ℤ) < ⌈((c : ℕ) : ℚ) / ((pp : ℕ) : ℚ)⌉) := by
    rw [hmax, hpg]
    simp only [JSNum.lt]
    congr 1
    apply propext
    constructor
    · intro hq; exact_mod_cast hq
    · intro hq; exact_mod_cast hq
  have hgt : (JSNum.fin 1).lt s.page = decide (1 < pg) := by
    rw [hpg]
    simp only [JSNum.lt]
    congr 1
    apply propext
    constructor
    · intro hq; exact_mod_cast hq
    · intro hq; exact_mod_cast hq
  have hnext : (pg : ℤ) < ⌈((c : ℕ) : ℚ) / ((pp : ℕ) : ℚ)⌉ →
      (nextPage h s).page = .fin (((pg + 1 : ℕ)) : ℚ) := by
    intro hp
    unfold nextPage
    rw [hlt]
    simp [hp, setPage, hpg, JSNum.add]
  have hnext2 : ¬ (pg : ℤ) < ⌈((c : ℕ) : ℚ) / ((pp : ℕ) : ℚ)⌉ → nextPage h s = s := by
    intro hp
    unfold nextPage
    rw [hlt]
    simp [hp]
  have hprev : 1 < pg → (prevPage s).page = .fin (((pg - 1 : ℕ)) : ℚ) := by
    intro hp
    have : ((pg - 1 : ℕ) : ℚ) = (pg : ℚ) - 1 := by
      rw [Nat.cast_sub (by omega)]; simp
    unfold prevPage
    rw [hgt]
    simp [hp, setPage, hpg, JSNum.sub, this]
  have hprev2 : ¬ 1 < pg → prevPage s = s := by
    intro hp
    unfold prevPage
    rw [hgt]
    simp [hp]
  refine ⟨hmax, ?_, ?_, ?_, ?_, hnext, hnext2, hprev, hprev2, ?_, ?_⟩
  · unfold nextPage; split <;> rfl
  · unfold nextPage; split <;> rfl
  · unfold prevPage; split <;> rfl
  · unfold prevPage; split <;> rfl
  · by_cases hp : (pg : ℤ) < ⌈((c : ℕ) : ℚ) / ((pp : ℕ) : ℚ)⌉
    · exact ⟨pg + 1, hnext hp, by omega, by push_cast; omega⟩
    · exact ⟨pg, by rw [hnext2 hp, hpg], hlo, hhi⟩
  · by_cases hp : 1 < pg
    · exact ⟨pg - 1, hprev hp, by omega, by omega⟩
    · exact ⟨pg, by rw [hprev2 hp, hpg], hlo, hhi⟩

/-- Witness of `paging_invariant` on page 2 of 3. -/
theorem paging_invariant_witness :
    toNumber refHost (exState.calls.get "count") = .fin ((120 : ℕ) : ℚ) ∧
    exState.perPage = .fin ((50 : ℕ) : ℚ) ∧ exState.page = .fin ((2 : ℕ) : ℚ) ∧
    (2 : ℤ) ≤ ⌈((120 : ℕ) : ℚ) / ((50 : ℕ) : ℚ)⌉ ∧
    (nextPage refHost exState).page = .fin (((2 + 1 : ℕ)) : ℚ) :=
  have hc : toNumber refHost (exState.calls.get "count") = .fin ((120 : ℕ) : ℚ) := by
    simp [exState, toNumber, toPrimitive, primToNumber, Obj.get, List.lookup]
  have hpp : exState.perPage = .fin ((50 : ℕ) : ℚ) := by simp [exState]
  have hpg : exState.page = .fin ((2 : ℕ) : ℚ) := by simp [exState]
  have hhi : ((2 : ℕ) : ℤ) ≤ ⌈((120 : ℕ) : ℚ) / ((50 : ℕ) : ℚ)⌉ := by
    rw [Int.le_ceil_iff]; norm_num
  have hlt : ((2 : ℕ) : ℤ) < ⌈((120 : ℕ) : ℚ) / ((50 : ℕ) : ℚ)⌉ := by
    rw [Int.lt_ceil]; norm_num
  ⟨hc, hpp, hpg, hhi,
    (paging_invariant refHost exState 120 50 2 hc hpp hpg (by norm_num) (by norm_num)
      hhi).2.2.2.2.2.1 hlt⟩

/-- Claim C13 (bounds of the displayed range).  For whole `calls.count >= 0`,
`perPage >= 1` and `1 <= page <= maxPage`, `topCount` is the number
`min(calls.count, page * perPage)`; it satisfies
`(page - 1) * perPage < topCount <= calls.count`, and it equals `calls.count`
exactly when `page = maxPage`. -/
theorem top_count_bounds (h : Host) (s : State) (c pp pg : ℕ)
    (hc : toNumber h (s.calls.get "count") = .fin ((c : ℕ) : ℚ))
    (hpp : s.perPage = .fin ((pp : ℕ) : ℚ)) (hpg : s.page = .fin ((pg : ℕ) : ℚ))
    (h1 : 1 ≤ pp) (hhi : (pg : ℤ) ≤ ⌈((c : ℕ) : ℚ) / ((pp : ℕ) : ℚ)⌉) :
    maxPage h s = .fin ((⌈((c : ℕ) : ℚ) / ((pp : ℕ) : ℚ)⌉ : ℤ) : ℚ) ∧
    topCount h s = .fin (min ((c : ℕ) : ℚ) (((pg : ℕ) : ℚ) * ((pp : ℕ) : ℚ))) ∧
    (((pg : ℕ) : ℚ) - 1) * ((pp : ℕ) : ℚ) < min ((c : ℕ) : ℚ) (((pg : ℕ) : ℚ) * ((pp : ℕ) : ℚ)) ∧
    min ((c : ℕ) : ℚ) (((pg : ℕ) : ℚ) * ((pp : ℕ) : ℚ)) ≤ ((c : ℕ) : ℚ) ∧
    (min ((c : ℕ) : ℚ) (((pg : ℕ) : ℚ) * ((pp : ℕ) : ℚ)) = ((c : ℕ) : ℚ) ↔
      (pg : ℤ) = ⌈((c : ℕ) : ℚ) / ((pp : ℕ) : ℚ)⌉) := by
  have hppos : (0 : ℚ) < pp := by exact_mod_cast h1
  have hmax := maxPage_eq h s c pp hc hpp h1
  have hceil : (pg : ℚ) - 1 < (c : ℚ) / pp := by
    have h2 : ((pg : ℤ) : ℚ) ≤ ((⌈((c : ℕ) : ℚ) / ((pp : ℕ) : ℚ)⌉ : ℤ) : ℚ) := by
      exact_mod_cast hhi
    have h3 := Int.ceil_lt_add_one (((c : ℕ) : ℚ) / ((pp : ℕ) : ℚ))
    have h4 : ((pg : ℤ) : ℚ) = (pg : ℚ) := by simp
    linarith
  have hlow : ((pg : ℚ) - 1) * pp < c := by
    have := (lt_div_iff₀ hppos).mp hceil
    exact this
  refine ⟨hmax, by simp [topCount, hc, hpp, hpg, JSNum.mul, Math_min], ?_, min_le_left _ _, ?_⟩
  · rw [lt_min_iff]
    refine ⟨hlow, ?_⟩
    have : ((pg : ℚ) - 1) * pp = pg * pp - pp := by ring
    rw [this]
    linarith
  · rw [min_eq_left_iff]
    constructor
    · intro hle
      have h5 : (c : ℚ) / pp ≤ pg := (div_le_iff₀ hppos).mpr hle
      have h6 : ⌈((c : ℕ) : ℚ) / ((pp : ℕ) : ℚ)⌉ ≤ (pg : ℤ) := by
        rw [Int.ceil_le]
        simpa using h5
      omega
    · intro heq
      have h7 : ⌈((c : ℕ) : ℚ) / ((pp : ℕ) : ℚ)⌉ ≤ (pg : ℤ) := by omega
      rw [Int.ceil_le] at h7
      have h8 : (c : ℚ) / pp ≤ pg := by simpa using h7
      exact (div_le_iff₀ hppos).mp h8

/-- Witness of `top_count_bounds` on page 2 of 3. -/
theorem top_count_bounds_witness :
    toNumber refHost (exState.calls.get "count") = .fin ((120 : ℕ) : ℚ) ∧
    exState.perPage = .fin ((50 : ℕ) : ℚ) ∧ exState.page = .fin ((2 : ℕ) : ℚ) ∧
    (2 : ℤ) ≤ ⌈((120 : ℕ) : ℚ) / ((50 : ℕ) : ℚ)⌉ ∧
    topCount refHost exState
      = .fin (min ((120 : ℕ) : ℚ) (((2 : ℕ) : ℚ) * ((50 : ℕ) : ℚ))) :=
  have hc : toNumber refHost (exState.calls.get "count") = .fin ((120 : ℕ) : ℚ) := by
    simp [exState, toNumber, toPrimitive, primToNumber, Obj.get, List.lookup]
  have hpp : exState.perPage = .fin ((50 : ℕ) : ℚ) := by simp [exState]
  have hpg : exState.page = .fin ((2 : ℕ) : ℚ) := by simp [exState]
  have hhi : ((2 : ℕ) : ℤ) ≤ ⌈((120 : ℕ) : ℚ) / ((50 : ℕ) : ℚ)⌉ := by
    rw [Int.le_ceil_iff]; norm_num
  ⟨hc, hpp, hpg, hhi,
    (top_count_bounds refHost exState 120 50 2 hc hpp hpg (by norm_num) hhi).2.1⟩

end CallList

end CFS
